import Mathlib

/-!
# Verification of the cpptraj `Frame` core (Frame.cpp)

A shallow embedding of the `Frame` coordinate-frame data structure and its
mask/map based copy operations, arithmetic, and the Kabsch best-fit RMSD
algorithm, translated from `src/Frame.cpp`.  Machine doubles are idealised
as exact rationals; the external black boxes (libm `sqrt` and the symmetric
3x3 eigensolver `Matrix_3x3::Diagonalize_Sort`, which the specification
treats as an external capability) are passed in as explicit oracle
parameters.  Small helpers that live in headers not present in the source
tree (`Frame.h`, `Constants.h`, `Vec3.h`) are modelled from the
specification and marked as such in their doc comments.
-/

namespace Cpptraj

/-- Modelled from the spec: the "small numerical threshold" `SMALL` from
`Constants.h` (not under src/), used by the divide-by-near-zero and
zero-total-weight guards.  The spec requires `1e-20` to be below it. -/
def SMALL : ℚ := 1 / 100000000000000

/-- A 3-vector of rationals, standing in for `Vec3`. -/
structure V3 where
  x : ℚ
  y : ℚ
  z : ℚ
deriving DecidableEq, Repr

/-- Modelled from the spec: `Vec3::Neg`, componentwise negation. -/
def V3.neg (v : V3) : V3 := ⟨-v.x, -v.y, -v.z⟩

/-- The zero 3-vector (`Vec3::Zero`). -/
def V3.zero : V3 := ⟨0, 0, 0⟩

/-- A 3x3 matrix stored row-major as nine scalars, standing in for
`Matrix_3x3` and its flat `operator[]` indexing `m[3*row+col]`. -/
structure M3 where
  m0 : ℚ
  m1 : ℚ
  m2 : ℚ
  m3 : ℚ
  m4 : ℚ
  m5 : ℚ
  m6 : ℚ
  m7 : ℚ
  m8 : ℚ
deriving DecidableEq, Repr

/-- The zero matrix (`Matrix_3x3 rot(0.0)`). -/
def M3.zero : M3 := ⟨0, 0, 0, 0, 0, 0, 0, 0, 0⟩

/-- Modelled from the spec: `Matrix_3x3::TransposeMult` ("matrix-transpose-
multiply"), used by Frame.cpp as `rot.TransposeMult(rot)` to form the
symmetric matrix `R^T R`. -/
def M3.transposeMult (a b : M3) : M3 :=
  ⟨a.m0*b.m0 + a.m3*b.m3 + a.m6*b.m6,
   a.m0*b.m1 + a.m3*b.m4 + a.m6*b.m7,
   a.m0*b.m2 + a.m3*b.m5 + a.m6*b.m8,
   a.m1*b.m0 + a.m4*b.m3 + a.m7*b.m6,
   a.m1*b.m1 + a.m4*b.m4 + a.m7*b.m7,
   a.m1*b.m2 + a.m4*b.m5 + a.m7*b.m8,
   a.m2*b.m0 + a.m5*b.m3 + a.m8*b.m6,
   a.m2*b.m1 + a.m5*b.m4 + a.m8*b.m7,
   a.m2*b.m2 + a.m5*b.m5 + a.m8*b.m8⟩

/-- The `Frame` state: atom count `natom_`, capacity `maxnatom_`, cached
coordinate count `ncoord_`, temperature `T_`, coordinate buffer `X_`
(flat, stride 3 per atom, `maxnatom_*3` slots), optional velocity buffer
`V_`, per-atom mass array `Mass_` and the six box scalars `box_`. -/
structure Frame where
  natom : ℕ
  maxnatom : ℕ
  ncoord : ℕ
  T : ℚ
  X : List ℚ
  V : Option (List ℚ)
  Mass : List ℚ
  box : List ℚ
deriving DecidableEq, Repr

/-- Read one slot of the coordinate buffer (out-of-range reads, which are
undefined behaviour in the C++, default to 0). -/
def Frame.coord (f : Frame) (i : ℕ) : ℚ := f.X.getD i 0

/-- The coordinates of atom `a` as a 3-vector (`X_[3a], X_[3a+1], X_[3a+2]`). -/
def Frame.atomV (f : Frame) (a : ℕ) : V3 :=
  ⟨f.coord (3*a), f.coord (3*a + 1), f.coord (3*a + 2)⟩

/-- Overwrite the buffer `X` starting at slot `pos` with the block `w`,
leaving everything before `pos` and after `pos + w.length` unchanged.
This models in-place pointer writes into an owned C array. -/
def writeAt (X : List ℚ) (pos : ℕ) (w : List ℚ) : List ℚ :=
  X.take pos ++ w ++ X.drop (pos + w.length)

/-- Reading a buffer after an in-place block write: inside the block one
reads the block, outside it the original buffer. -/
theorem writeAt_getD (X w : List ℚ) (pos i : ℕ) (hp : pos ≤ X.length) :
    (writeAt X pos w).getD i 0 =
      if i < pos then X.getD i 0
      else if i < pos + w.length then w.getD (i - pos) 0
      else X.getD i 0 := by
  unfold writeAt
  have hlen : (X.take pos).length = pos := by
    simp [List.length_take, Nat.min_eq_left hp]
  rw [List.append_assoc]
  by_cases h1 : i < pos
  · rw [if_pos h1, List.getD_append _ _ _ _ (by rw [hlen]; exact h1),
      List.getD_eq_getElem?_getD, List.getD_eq_getElem?_getD, List.getElem?_take,
      if_pos h1]
  · rw [if_neg h1, List.getD_append_right _ _ _ _ (by rw [hlen]; omega), hlen]
    by_cases h2 : i < pos + w.length
    · rw [if_pos h2]
      exact List.getD_append w _ 0 (i - pos) (by omega)
    · rw [if_neg h2]
      rw [List.getD_append_right w _ 0 (i - pos) (by omega),
        List.getD_eq_getElem?_getD, List.getD_eq_getElem?_getD, List.getElem?_drop]
      have hi : pos + w.length + (i - pos - w.length) = i := by omega
      rw [hi]

/-- Gather the stride-3 coordinate triples of the listed atoms from a raw
buffer, in list order (the common `memcpy(newX, src + 3*atom, COORDSIZE_)`
loop shape). -/
def gather3 (X : List ℚ) (idxs : List ℕ) : List ℚ :=
  (idxs.map (fun a => [X.getD (3*a) 0, X.getD (3*a + 1) 0, X.getD (3*a + 2) 0])).flatten

theorem gather3_length (X : List ℚ) (idxs : List ℕ) :
    (gather3 X idxs).length = 3 * idxs.length := by
  induction idxs with
  | nil => simp [gather3]
  | cons a t ih =>
    simp only [gather3, List.map_cons, List.flatten_cons, List.length_append,
      List.length_cons, List.length_nil] at *
    omega

/-- Reading slot `3*j+k` (`k < 3`) of a gathered buffer reads component `k`
of the source atom listed at position `j`. -/
theorem gather3_getD (X : List ℚ) (idxs : List ℕ) (j k : ℕ)
    (hj : j < idxs.length) (hk : k < 3) :
    (gather3 X idxs).getD (3*j + k) 0 = X.getD (3 * idxs.getD j 0 + k) 0 := by
  induction idxs generalizing j with
  | nil => simp at hj
  | cons a t ih =>
    cases j with
    | zero =>
      interval_cases k <;> simp [gather3]
    | succ j =>
      have h3 : 3 * (j + 1) + k = 3 + (3 * j + k) := by ring
      simp only [gather3, List.map_cons, List.flatten_cons] at *
      rw [h3, List.getD_append_right _ _ _ _ (by simp), List.getD_cons_succ]
      simp only [List.length_cons, List.length_nil]
      have : 3 + (3 * j + k) - (2 + 1) = 3 * j + k := by omega
      rw [this]
      exact ih j (by simpa using hj)

/-- `std::vector::resize(n)` on a double array: keep the first `n` entries,
pad with zeros if growing. -/
def resizeList (l : List ℚ) (n : ℕ) : List ℚ :=
  l.take n ++ List.replicate (n - l.length) 0

/-- `Frame::Frame(int natomIn)`: sized constructor.  The C++ buffer from
`new double[ncoord]` is uninitialised; the unspecified contents are
modelled as zeros. -/
def frameSized (natomIn : ℕ) : Frame :=
  { natom := natomIn, maxnatom := natomIn, ncoord := natomIn * 3, T := 0,
    X := List.replicate (natomIn * 3) 0, V := none, Mass := [],
    box := List.replicate 6 0 }

/-- `Frame::Frame(std::vector<Atom> const&)`: sized constructor that also
fills `Mass_` from each atom's mass, in list order (an `Atom` is
represented by its mass, the only field Frame.cpp reads). -/
def frameFromAtoms (atoms : List ℚ) : Frame :=
  { natom := atoms.length, maxnatom := atoms.length, ncoord := atoms.length * 3,
    T := 0, X := List.replicate (atoms.length * 3) 0, V := none,
    Mass := if atoms.length = 0 then [] else atoms,
    box := List.replicate 6 0 }

/-- `Frame::Frame(Frame const&, AtomMask const&)`: masked copy constructor.
Coordinates of the selected atoms are gathered in mask order; the mass and
velocity arrays are gathered only in the branches the source actually
takes (mass iff `Mass_` nonempty, velocity iff additionally `V_ != NULL`),
and only when `ncoord_ > 0`; box and temperature are copied verbatim. -/
def Frame.maskedCopy (frameIn : Frame) (maskIn : List ℕ) : Frame :=
  { natom := maskIn.length, maxnatom := maskIn.length,
    ncoord := maskIn.length * 3, T := frameIn.T, box := frameIn.box,
    X := gather3 frameIn.X maskIn,
    V := if maskIn.length ≠ 0 ∧ frameIn.Mass ≠ [] ∧ frameIn.V ≠ none
         then some (gather3 (frameIn.V.getD []) maskIn) else none,
    Mass := if maskIn.length ≠ 0 ∧ frameIn.Mass ≠ []
            then maskIn.map (fun a => frameIn.Mass.getD a 0) else [] }

/-- `Frame::SetupFrame(int)`: size for `natomIn` atoms, reallocating only on
growth; drops the velocity buffer and clears the mass array. -/
def Frame.SetupFrame (f : Frame) (natomIn : ℕ) : Frame :=
  { natom := natomIn, ncoord := natomIn * 3,
    maxnatom := if natomIn > f.maxnatom then natomIn else f.maxnatom,
    X := if natomIn > f.maxnatom then List.replicate (natomIn * 3) 0 else f.X,
    V := none, Mass := [], T := f.T, box := f.box }

/-- `Frame::SetupFrameM`: as SetupFrame but repopulates `Mass_` from the
atom list; the mass array is resized only when the coordinate buffer was
reallocated or no mass array existed. -/
def Frame.SetupFrameM (f : Frame) (atoms : List ℚ) : Frame :=
  let n := atoms.length
  let grown := n > f.maxnatom
  let maxn := if grown then n else f.maxnatom
  let mass0 := if grown ∨ f.Mass = [] then resizeList f.Mass maxn else f.Mass
  { natom := n, ncoord := n * 3, maxnatom := maxn,
    X := if grown then List.replicate (n * 3) 0 else f.X,
    Mass := writeAt mass0 0 atoms,
    V := none, T := f.T, box := f.box }

/-- `Frame::SetupFrameV`: as SetupFrameM, plus velocity handling: allocate a
zero-filled velocity buffer when requested and absent or reallocated,
drop it when not requested. -/
def Frame.SetupFrameV (f : Frame) (atoms : List ℚ) (hasVelocity : Bool) : Frame :=
  let n := atoms.length
  let grown := n > f.maxnatom
  let maxn := if grown then n else f.maxnatom
  let mass0 := if grown ∨ f.Mass = [] then resizeList f.Mass maxn else f.Mass
  { natom := n, ncoord := n * 3, maxnatom := maxn,
    X := if grown then List.replicate (n * 3) 0 else f.X,
    V := if hasVelocity then
           (if grown ∨ f.V = none then some (List.replicate (maxn * 3) 0) else f.V)
         else none,
    Mass := writeAt mass0 0 atoms, T := f.T, box := f.box }

/-- `Frame::SetupFrameFromMask`: size for the mask's selection and gather the
selected atoms' masses from the atom list (velocities untouched). -/
def Frame.SetupFrameFromMask (f : Frame) (maskIn : List ℕ) (atoms : List ℚ) : Frame :=
  let n := maskIn.length
  let grown := n > f.maxnatom
  let maxn := if grown then n else f.maxnatom
  let mass0 := if grown ∨ f.Mass = [] then resizeList f.Mass maxn else f.Mass
  { natom := n, ncoord := n * 3, maxnatom := maxn,
    X := if grown then List.replicate (n * 3) 0 else f.X,
    Mass := writeAt mass0 0 (maskIn.map (fun a => atoms.getD a 0)),
    V := f.V, T := f.T, box := f.box }

/-- `Frame::SetCoordinatesByMask`: copy a raw coordinate buffer into this
frame through a mask (guard: selection must fit the capacity, else the
frame is left unchanged). -/
def Frame.SetCoordinatesByMask (f : Frame) (Xin : List ℚ) (maskIn : List ℕ) : Frame :=
  if maskIn.length > f.maxnatom then f
  else { f with
    natom := maskIn.length
    ncoord := maskIn.length * 3
    X := writeAt f.X 0 (gather3 Xin maskIn) }

/-- `Frame::SetCoordinates(Frame const&, AtomMask const&)`: copy coordinates,
box and temperature from the input frame through a mask. -/
def Frame.SetCoordinatesMask (f : Frame) (frameIn : Frame) (maskIn : List ℕ) : Frame :=
  if maskIn.length > f.maxnatom then f
  else { f with
    natom := maskIn.length
    ncoord := maskIn.length * 3
    box := frameIn.box
    T := frameIn.T
    X := writeAt f.X 0 (gather3 frameIn.X maskIn) }

/-- `Frame::SetCoordinates(Frame const&)`: copy only the coordinates of the
input frame (identity selection). -/
def Frame.SetCoordinatesFrame (f : Frame) (frameIn : Frame) : Frame :=
  if frameIn.natom > f.maxnatom then f
  else { f with
    natom := frameIn.natom
    ncoord := frameIn.natom * 3
    X := writeAt f.X 0 (frameIn.X.take (frameIn.natom * 3)) }

/-- `Frame::SetFrame`: copy coordinates, mass, box, temperature — and
velocities when both frames have them — through a mask. -/
def Frame.SetFrame (f : Frame) (frameIn : Frame) (maskIn : List ℕ) : Frame :=
  if maskIn.length > f.maxnatom then f
  else
    { f with
      natom := maskIn.length
      ncoord := maskIn.length * 3
      box := frameIn.box
      T := frameIn.T
      X := writeAt f.X 0 (gather3 frameIn.X maskIn)
      V := if frameIn.V ≠ none ∧ f.V ≠ none
           then some (writeAt (f.V.getD []) 0 (gather3 (frameIn.V.getD []) maskIn))
           else f.V
      Mass := writeAt f.Mass 0 (maskIn.map (fun a => frameIn.Mass.getD a 0)) }

/-- `Frame::SetCoordinatesByMap`: reorder the target frame's atoms through a
complete atom map (`newAtom i` reads source atom `map[i]`). -/
def Frame.SetCoordinatesByMap (f : Frame) (tgtIn : Frame) (mapIn : List ℤ) : Frame :=
  if tgtIn.natom > f.maxnatom then f
  else if mapIn.length ≠ tgtIn.natom then f
  else { f with
    natom := tgtIn.natom
    ncoord := tgtIn.natom * 3
    X := writeAt f.X 0 (gather3 tgtIn.X (mapIn.map Int.toNat)) }

/-- The positions of the mapped (non `-1`) entries of an atom map, in order:
`SetReferenceByMap` copies source atom `i` for each such position `i`. -/
def mappedPositions (mapIn : List ℤ) : List ℕ :=
  (mapIn.enum.filter (fun p => p.2 ≠ -1)).map (fun p => p.1)

/-- The values of the mapped (non `-1`) entries of an atom map, in order:
`SetTargetByMap` copies source atom `map[i]` for each such entry. -/
def mappedValues (mapIn : List ℤ) : List ℕ :=
  (mapIn.filter (fun v => v ≠ -1)).map Int.toNat

/-- `Frame::SetReferenceByMap`: the source read pointer advances one atom per
map entry unconditionally; output is written (and advances) only for
mapped entries.  Final counts come from the write pointer:
`ncoord_ = newXptr - X_`, `natom_ = ncoord_ / 3`. -/
def Frame.SetReferenceByMap (f : Frame) (refIn : Frame) (mapIn : List ℤ) : Frame :=
  if refIn.natom > f.maxnatom then f
  else if mapIn.length ≠ refIn.natom then f
  else
    let w := gather3 refIn.X (mappedPositions mapIn)
    { f with
      X := writeAt f.X 0 w
      ncoord := w.length
      natom := w.length / 3 }

/-- `Frame::SetTargetByMap`: the source is addressed by the map entry's value;
skipped (`-1`) entries never advance any source-side position. -/
def Frame.SetTargetByMap (f : Frame) (tgtIn : Frame) (mapIn : List ℤ) : Frame :=
  if tgtIn.natom > f.maxnatom then f
  else if mapIn.length ≠ tgtIn.natom then f
  else
    let w := gather3 tgtIn.X (mappedValues mapIn)
    { f with
      X := writeAt f.X 0 w
      ncoord := w.length
      natom := w.length / 3 }

/-- `Frame::SetFromCRD`: assign a float array (with `numBoxCrd` trailing box
values) to this frame.  `f_ncoord = farray.size() - numBoxCrd` (the `int`
subtraction is modelled on ℕ, i.e. for `numBoxCrd <= farray.size()`);
note `natom_ = ncoord_ / 3` truncates when `f_ncoord` is not a multiple
of 3. -/
def Frame.SetFromCRD (f : Frame) (farray : List ℚ) (numBoxCrd : ℕ) : Frame :=
  let fNcoord := farray.length - numBoxCrd
  if fNcoord > f.maxnatom * 3 then f
  else { f with
    ncoord := fNcoord
    natom := fNcoord / 3
    X := writeAt f.X 0 (farray.take fNcoord)
    box := writeAt f.box 0 ((farray.drop fNcoord).take numBoxCrd) }

/-- `Frame::ReallocateX`: grow capacity by the fixed 500-atom increment,
preserving the first `natom_` atoms (the fresh tail is uninitialised in
C++, modelled as zeros). -/
def Frame.ReallocateX (f : Frame) : Frame :=
  { f with
    maxnatom := f.maxnatom + 500
    X := f.X.take (f.natom * 3) ++
         List.replicate ((f.maxnatom + 500) * 3 - f.natom * 3) 0 }

/-- `Frame::AddXYZ`: append one XYZ triple at write position `ncoord_`,
growing the buffer first if full. -/
def Frame.AddXYZ (f : Frame) (xyz : V3) : Frame :=
  let g := if f.natom ≥ f.maxnatom then f.ReallocateX else f
  { g with
    X := writeAt g.X g.ncoord [xyz.x, xyz.y, xyz.z]
    natom := g.natom + 1
    ncoord := g.ncoord + 3 }

/-- `Frame::AddVec3`: identical to AddXYZ with a `Vec3` argument. -/
def Frame.AddVec3 (f : Frame) (vIn : V3) : Frame :=
  let g := if f.natom ≥ f.maxnatom then f.ReallocateX else f
  { g with
    X := writeAt g.X g.ncoord [vIn.x, vIn.y, vIn.z]
    natom := g.natom + 1
    ncoord := g.ncoord + 3 }

/-- `Frame::operator+=`: elementwise over the first `ncoord_` slots; on an
atom-count mismatch report an error and leave the frame unchanged. -/
def Frame.addFrame (f rhs : Frame) : Frame :=
  if f.natom ≠ rhs.natom then f
  else { f with
    X := writeAt f.X 0
      ((List.range f.ncoord).map (fun i => f.X.getD i 0 + rhs.X.getD i 0)) }

/-- `Frame::operator-=`: elementwise subtraction, same mismatch guard. -/
def Frame.subFrame (f rhs : Frame) : Frame :=
  if f.natom ≠ rhs.natom then f
  else { f with
    X := writeAt f.X 0
      ((List.range f.ncoord).map (fun i => f.X.getD i 0 - rhs.X.getD i 0)) }

/-- `Frame::operator*=`: elementwise product, same mismatch guard. -/
def Frame.mulFrame (f rhs : Frame) : Frame :=
  if f.natom ≠ rhs.natom then f
  else { f with
    X := writeAt f.X 0
      ((List.range f.ncoord).map (fun i => f.X.getD i 0 * rhs.X.getD i 0)) }

/-- `Frame::Divide(Frame const&, double)`: guard `divisor < SMALL` (a signed
comparison in the source), then an atom-count guard, then elementwise
`X_[i] = dividend.X_[i] / divisor`; the `int` error code is the first
component (1 = error, 0 = success). -/
def Frame.DivideFrame (f : Frame) (dividend : Frame) (divisor : ℚ) : ℕ × Frame :=
  if divisor < SMALL then (1, f)
  else if f.natom ≠ dividend.natom then (1, f)
  else (0, { f with
    X := writeAt f.X 0
      ((List.range f.ncoord).map (fun i => dividend.X.getD i 0 / divisor)) })

/-- `Frame::Divide(double)`: guard `divisor < SMALL` (signed comparison in
the source), else divide every coordinate in place. -/
def Frame.Divide (f : Frame) (divisor : ℚ) : Frame :=
  if divisor < SMALL then f
  else { f with
    X := writeAt f.X 0
      ((List.range f.ncoord).map (fun i => f.X.getD i 0 / divisor)) }

/-- `Frame::AddByMask`: accumulate the masked atoms of `frameIn` into the
first `mask.size()` atoms of this frame (destination indices are
sequential `0,1,2,...`, not the mask values). -/
def Frame.AddByMask (f : Frame) (frameIn : Frame) (maskIn : List ℕ) : Frame :=
  if maskIn.length > f.maxnatom then f
  else { f with
    X := writeAt f.X 0
      ((maskIn.enum.map (fun p =>
        [f.X.getD (3*p.1) 0 + frameIn.X.getD (3*p.2) 0,
         f.X.getD (3*p.1 + 1) 0 + frameIn.X.getD (3*p.2 + 1) 0,
         f.X.getD (3*p.1 + 2) 0 + frameIn.X.getD (3*p.2 + 2) 0])).flatten) }

-- ---------- Geometry helpers used by the RMSD routines ----------------------

/-- Modelled from the spec: `Frame::Translate` from Frame.h (not under src/),
"adds a constant vector to every atom's coordinates".  The source loop
covers `ncoord_` slots in steps of 3, i.e. the `natom_` atoms under the
`ncoord_ == natom_*3` invariant. -/
def Frame.Translate (f : Frame) (v : V3) : Frame :=
  { f with
    X := writeAt f.X 0
      (((List.range f.natom).map (fun a =>
        [f.coord (3*a) + v.x, f.coord (3*a + 1) + v.y,
         f.coord (3*a + 2) + v.z])).flatten) }

/-- Modelled from the spec: `Frame::NegTranslate` from Frame.h (not under
src/), subtracts a constant vector from every atom's coordinates. -/
def Frame.NegTranslate (f : Frame) (v : V3) : Frame :=
  { f with
    X := writeAt f.X 0
      (((List.range f.natom).map (fun a =>
        [f.coord (3*a) - v.x, f.coord (3*a + 1) - v.y,
         f.coord (3*a + 2) - v.z])).flatten) }

/-- Modelled from the spec: `Frame::VCenterOfMass(startAtom, stopAtom)` from
Frame.h (not under src/), the mass-weighted average position of the atom
range `[start, stop)` (ℚ division by a zero total yields the junk value 0,
matching the source's zero-vector guard). -/
def Frame.VCenterOfMass (f : Frame) (startAtom stopAtom : ℕ) : V3 :=
  let m := ∑ i ∈ Finset.Ico startAtom stopAtom, f.Mass.getD i 0
  ⟨(∑ i ∈ Finset.Ico startAtom stopAtom, f.coord (3*i) * f.Mass.getD i 0) / m,
   (∑ i ∈ Finset.Ico startAtom stopAtom, f.coord (3*i + 1) * f.Mass.getD i 0) / m,
   (∑ i ∈ Finset.Ico startAtom stopAtom, f.coord (3*i + 2) * f.Mass.getD i 0) / m⟩

/-- Modelled from the spec: `Frame::VGeometricCenter(startAtom, stopAtom)`
from Frame.h (not under src/), the unweighted average position of the
atom range `[start, stop)`. -/
def Frame.VGeometricCenter (f : Frame) (startAtom stopAtom : ℕ) : V3 :=
  let m : ℚ := (stopAtom - startAtom : ℕ)
  ⟨(∑ i ∈ Finset.Ico startAtom stopAtom, f.coord (3*i)) / m,
   (∑ i ∈ Finset.Ico startAtom stopAtom, f.coord (3*i + 1)) / m,
   (∑ i ∈ Finset.Ico startAtom stopAtom, f.coord (3*i + 2)) / m⟩

-- ---------- The Kabsch fit (Frame::RMSD_CenteredRef) -------------------------

/-- The total weight accumulated by `RMSD_CenteredRef`: the mass sum when
mass-weighting, else the atom count cast to double. -/
def Frame.totalWeight (f : Frame) (useMass : Bool) : ℚ :=
  if useMass then ∑ a ∈ Finset.range f.natom, f.Mass.getD a 0
  else (f.natom : ℚ)

/-- The raw (weighted) coordinate sums accumulated into `Trans` at the top of
`RMSD_CenteredRef`, before the divide by the total weight. -/
def Frame.transSum (f : Frame) (useMass : Bool) : V3 :=
  if useMass then
    ⟨∑ a ∈ Finset.range f.natom, f.coord (3*a) * f.Mass.getD a 0,
     ∑ a ∈ Finset.range f.natom, f.coord (3*a + 1) * f.Mass.getD a 0,
     ∑ a ∈ Finset.range f.natom, f.coord (3*a + 2) * f.Mass.getD a 0⟩
  else
    ⟨∑ a ∈ Finset.range f.natom, f.coord (3*a),
     ∑ a ∈ Finset.range f.natom, f.coord (3*a + 1),
     ∑ a ∈ Finset.range f.natom, f.coord (3*a + 2)⟩

/-- `mwss` of `RMSD_CenteredRef`: `E0 = 0.5 * Sum(weight*(|x_t|^2+|x_r|^2))`
over this frame's (already centered) coordinates and the reference's. -/
def Frame.kabschE0 (f Ref : Frame) (useMass : Bool) : ℚ :=
  (1/2) * ∑ a ∈ Finset.range f.natom,
    (if useMass then f.Mass.getD a 0 else 1) *
      (f.coord (3*a) * f.coord (3*a) + f.coord (3*a + 1) * f.coord (3*a + 1) +
       f.coord (3*a + 2) * f.coord (3*a + 2) +
       Ref.coord (3*a) * Ref.coord (3*a) + Ref.coord (3*a + 1) * Ref.coord (3*a + 1) +
       Ref.coord (3*a + 2) * Ref.coord (3*a + 2))

/-- The weighted cross-covariance (Kabsch) matrix `rot` of `RMSD_CenteredRef`:
`rot[3a+b] = Sum(weight * this_a * ref_b)` per atom. -/
def Frame.kabschR (f Ref : Frame) (useMass : Bool) : M3 :=
  let w : ℕ → ℚ := fun a => if useMass then f.Mass.getD a 0 else 1
  ⟨∑ a ∈ Finset.range f.natom, w a * f.coord (3*a) * Ref.coord (3*a),
   ∑ a ∈ Finset.range f.natom, w a * f.coord (3*a) * Ref.coord (3*a + 1),
   ∑ a ∈ Finset.range f.natom, w a * f.coord (3*a) * Ref.coord (3*a + 2),
   ∑ a ∈ Finset.range f.natom, w a * f.coord (3*a + 1) * Ref.coord (3*a),
   ∑ a ∈ Finset.range f.natom, w a * f.coord (3*a + 1) * Ref.coord (3*a + 1),
   ∑ a ∈ Finset.range f.natom, w a * f.coord (3*a + 1) * Ref.coord (3*a + 2),
   ∑ a ∈ Finset.range f.natom, w a * f.coord (3*a + 2) * Ref.coord (3*a),
   ∑ a ∈ Finset.range f.natom, w a * f.coord (3*a + 2) * Ref.coord (3*a + 1),
   ∑ a ∈ Finset.range f.natom, w a * f.coord (3*a + 2) * Ref.coord (3*a + 2)⟩

/-- Row `k` of a row-major 3x3 matrix (`m[3k..3k+2]`). -/
def M3.row1 (m : M3) : V3 := ⟨m.m0, m.m1, m.m2⟩

def M3.row2 (m : M3) : V3 := ⟨m.m3, m.m4, m.m5⟩

def M3.row3 (m : M3) : V3 := ⟨m.m6, m.m7, m.m8⟩

/-- The cross product, as spelled out on `Evector[6..8]` and `cp[0..2]`. -/
def cross3 (a b : V3) : V3 :=
  ⟨a.y*b.z - a.z*b.y, a.z*b.x - a.x*b.z, a.x*b.y - a.y*b.x⟩

/-- Dot product of two 3-vectors. -/
def V3.dot (a b : V3) : ℚ := a.x*b.x + a.y*b.y + a.z*b.z

/-- The file-static `normalize` helper of Frame.cpp: scale by the reciprocal
square root of the squared norm (`sq` is the sqrt oracle). -/
def normalize3 (sq : ℚ → ℚ) (v : V3) : V3 :=
  let b := 1 / sq (v.x*v.x + v.y*v.y + v.z*v.z)
  ⟨v.x*b, v.y*b, v.z*b⟩

/-- `b[3k..3k+2] = Evector_k . rot` of `RMSD_CenteredRef`:
`b_j = Sum_k e_k * rot[3k+j]` for a row eigenvector `e`. -/
def rowMulM (e : V3) (rot : M3) : V3 :=
  ⟨e.x*rot.m0 + e.y*rot.m3 + e.z*rot.m6,
   e.x*rot.m1 + e.y*rot.m4 + e.z*rot.m7,
   e.x*rot.m2 + e.y*rot.m5 + e.z*rot.m8⟩

/-- Step 5 of the fit: replace the third eigenvector row with the cross
product of the first two (`a3 = a1 x a2`). -/
def kabschEvec (ev0 : M3) : M3 :=
  { ev0 with
    m6 := (cross3 ev0.row1 ev0.row2).x
    m7 := (cross3 ev0.row1 ev0.row2).y
    m8 := (cross3 ev0.row1 ev0.row2).z }

/-- The chirality sign `sig3`: -1 when `(b1 x b2) . b3 < 0`, else +1, with
`b_k = normalize(Evector_k . rot)`. -/
def kabschSig3 (sq : ℚ → ℚ) (rot ev : M3) : ℚ :=
  let b1 := normalize3 sq (rowMulM ev.row1 rot)
  let b2 := normalize3 sq (rowMulM ev.row2 rot)
  let b3 := normalize3 sq (rowMulM ev.row3 rot)
  if (cross3 b1 b2).dot b3 < 0 then -1 else 1

/-- The best-fit rotation `U`, assembled from the eigenvector rows and the
b-vectors, the third b-vector replaced by `b1 x b2` (element-by-element
translation of the nine assignments `U[0] .. U[8]`). -/
def kabschU (sq : ℚ → ℚ) (rot ev : M3) : M3 :=
  let b1 := normalize3 sq (rowMulM ev.row1 rot)
  let b2 := normalize3 sq (rowMulM ev.row2 rot)
  let c := cross3 b1 b2
  ⟨ev.m0*b1.x + ev.m3*b2.x + ev.m6*c.x,
   ev.m1*b1.x + ev.m4*b2.x + ev.m7*c.x,
   ev.m2*b1.x + ev.m5*b2.x + ev.m8*c.x,
   ev.m0*b1.y + ev.m3*b2.y + ev.m6*c.y,
   ev.m1*b1.y + ev.m4*b2.y + ev.m7*c.y,
   ev.m2*b1.y + ev.m5*b2.y + ev.m8*c.y,
   ev.m0*b1.z + ev.m3*b2.z + ev.m6*c.z,
   ev.m1*b1.z + ev.m4*b2.z + ev.m7*c.z,
   ev.m2*b1.z + ev.m5*b2.z + ev.m8*c.z⟩

/-- The `Trans` vector computed by `RMSD_CenteredRef` before translating:
the negated (optionally mass-weighted) centroid of this frame
(`Trans /= total_mass; Trans.Neg()`). -/
def Frame.rmsdTrans (f : Frame) (useMass : Bool) : V3 :=
  V3.neg ⟨(f.transSum useMass).x / f.totalWeight useMass,
          (f.transSum useMass).y / f.totalWeight useMass,
          (f.transSum useMass).z / f.totalWeight useMass⟩

/-- The outputs of `Frame::RMSD_CenteredRef`: the returned double, the
(possibly translated) state of `this`, and the `U` / `Trans` reference
output parameters. -/
structure RMSDOut where
  val : ℚ
  frame : Frame
  U : M3
  Trans : V3
deriving DecidableEq, Repr

/-- `Frame::RMSD_CenteredRef(Ref, U, Trans, useMassIn)`: the Kabsch best-fit
RMSD of this frame to an already-centered reference.  `sq` is the libm
`sqrt` oracle and `diag` the black-box symmetric eigensolver
`Matrix_3x3::Diagonalize_Sort` (modelled from the spec as an external
capability: eigenvalues sorted descending with row eigenvectors, `none`
on failure).  `U0` is the incoming value of the `U` output parameter
(left untouched on the two early-return paths). -/
def Frame.RMSD_CenteredRef (sq : ℚ → ℚ) (diag : M3 → Option (V3 × M3))
    (f Ref : Frame) (useMass : Bool) (U0 : M3) : RMSDOut :=
  let total := f.totalWeight useMass
  if total < SMALL then ⟨-1, f, U0, f.transSum useMass⟩
  else
    let Trans := f.rmsdTrans useMass
    let fShift := f.Translate Trans
    let mwss := Frame.kabschE0 fShift Ref useMass
    let rot := Frame.kabschR fShift Ref useMass
    match diag (rot.transposeMult rot) with
    | none => ⟨0, fShift, U0, Trans⟩
    | some (eig, ev0) =>
        let ev := kabschEvec ev0
        let sig3 := kabschSig3 sq rot ev
        let e := mwss - sq |eig.x| - sq |eig.y| - sig3 * sq |eig.z|
        ⟨if e < 0 then 0 else sq (2*e/total), fShift, kabschU sq rot ev, Trans⟩

/-- The outputs of the four-output-argument `Frame::RMSD`: additionally the
final state of `Ref` and the `refTrans` output parameter. -/
structure RMSD4Out where
  val : ℚ
  frame : Frame
  Ref : Frame
  U : M3
  Trans : V3
  refTrans : V3
deriving DecidableEq, Repr

/-- `Frame::RMSD(Ref, U, Trans, refTrans, useMassIn)`: compute the reference
centroid over this frame's `natom_` atoms, translate `Ref` to the origin
(a permanent side effect on `Ref`), then run `RMSD_CenteredRef`. -/
def Frame.RMSD (sq : ℚ → ℚ) (diag : M3 → Option (V3 × M3))
    (f Ref : Frame) (useMass : Bool) (U0 : M3) : RMSD4Out :=
  let refTrans := if useMass then Ref.VCenterOfMass 0 f.natom
                  else Ref.VGeometricCenter 0 f.natom
  let Ref2 := Ref.NegTranslate refTrans
  let out := Frame.RMSD_CenteredRef sq diag f Ref2 useMass U0
  ⟨out.val, out.frame, Ref2, out.U, out.Trans, refTrans⟩

-- ---------- Distance RMSD (Frame::DISTRMSD) ----------------------------------

/-- The squared distance between atoms `a1` and `a2` of a frame, as summed
slot by slot in `DISTRMSD` (`x*x + y*y + z*z`). -/
def Frame.pairDistSq (f : Frame) (a1 a2 : ℕ) : ℚ :=
  (f.coord (3*a1) - f.coord (3*a2)) * (f.coord (3*a1) - f.coord (3*a2)) +
  (f.coord (3*a1 + 1) - f.coord (3*a2 + 1)) * (f.coord (3*a1 + 1) - f.coord (3*a2 + 1)) +
  (f.coord (3*a1 + 2) - f.coord (3*a2 + 2)) * (f.coord (3*a1 + 2) - f.coord (3*a2 + 2))

/-- `Ndistances = ((natom_ * natom_) - natom_) / 2` (exact: `n^2 - n` is
even, so the `int` division truncates nothing). -/
def Frame.nDistances (f : Frame) : ℕ := (f.natom * f.natom - f.natom) / 2

/-- `Frame::DISTRMSD`: sum the squared differences of corresponding
intra-frame pairwise distances over `atom1 < atom2`, divide by
`Ndistances`, square root (`sq` is the sqrt oracle). -/
def Frame.DISTRMSD (sq : ℚ → ℚ) (f Ref : Frame) : ℚ :=
  let s := ∑ a1 ∈ Finset.range (f.natom - 1), ∑ a2 ∈ Finset.Ico (a1 + 1) f.natom,
    (sq (f.pairDistSq a1 a2) - sq (Ref.pairDistSq a1 a2)) *
    (sq (f.pairDistSq a1 a2) - sq (Ref.pairDistSq a1 a2))
  sq (s / (f.nDistances : ℚ))

-- ---------- General lemmas about the buffer encodings ------------------------

theorem flattenMap_length {α : Type} (L : List α) (g : α → List ℚ)
    (hg : ∀ x ∈ L, (g x).length = 3) :
    ((L.map g).flatten).length = 3 * L.length := by
  induction L with
  | nil => simp
  | cons a t ih =>
    simp only [List.map_cons, List.flatten_cons, List.length_append,
      List.length_cons]
    rw [hg a (by simp), ih (fun x hx => hg x (by simp [hx]))]
    ring

theorem flattenMap_getD {α : Type} (L : List α) (g : α → List ℚ)
    (hg : ∀ x ∈ L, (g x).length = 3) (j k : ℕ) (hj : j < L.length) (hk : k < 3) :
    ((L.map g).flatten).getD (3*j + k) 0 = (g (L.get ⟨j, hj⟩)).getD k 0 := by
  induction L generalizing j with
  | nil => simp at hj
  | cons a t ih =>
    have hga : (g a).length = 3 := hg a (by simp)
    cases j with
    | zero =>
      simp only [List.map_cons, List.flatten_cons, List.get]
      rw [List.getD_append _ _ _ _ (by omega)]
      norm_num
    | succ j =>
      simp only [List.map_cons, List.flatten_cons, List.get]
      rw [List.getD_append_right _ _ _ _ (by omega), hga]
      have h3 : 3 * (j + 1) + k - 3 = 3 * j + k := by omega
      rw [h3]
      exact ih (fun x hx => hg x (by simp [hx])) j (by simpa using hj)

theorem mapRange_getD (g : ℕ → ℚ) (n i : ℕ) :
    ((List.range n).map g).getD i 0 = if i < n then g i else 0 := by
  rcases lt_or_ge i n with h | h
  · rw [if_pos h, List.getD_eq_getElem?_getD, List.getElem?_map,
      List.getElem?_range h]
    rfl
  · rw [if_neg (not_lt.mpr h), List.getD_eq_getElem?_getD, List.getElem?_map]
    rw [List.getElem?_eq_none (by simpa using h)]
    rfl

-- ---------- C7: the Divide guards --------------------------------------------

/-- C7 counterexample: the guard is the signed comparison `divisor < SMALL`,
so `Divide` by `-1` — whose magnitude is far above the threshold, and for
which the claim predicts elementwise division — reports an error and
leaves the frame unchanged (both overloads). -/
theorem C7_divide_negative_counterexample :
    SMALL ≤ |(-1 : ℚ)| ∧
    Frame.Divide ⟨1, 1, 3, 0, [1, 2, 3], none, [], [0, 0, 0, 0, 0, 0]⟩ (-1) =
      ⟨1, 1, 3, 0, [1, 2, 3], none, [], [0, 0, 0, 0, 0, 0]⟩ ∧
    (Frame.DivideFrame ⟨1, 1, 3, 0, [1, 2, 3], none, [], [0, 0, 0, 0, 0, 0]⟩
        ⟨1, 1, 3, 0, [1, 2, 3], none, [], [0, 0, 0, 0, 0, 0]⟩ (-1)).1 = 1 ∧
    (1 : ℚ) / (-1) ≠ (1 : ℚ) := by
  have h1 : (-1 : ℚ) < SMALL := by norm_num [SMALL]
  refine ⟨by norm_num [SMALL], by simp [Frame.Divide, h1],
    by simp [Frame.DivideFrame, h1], by norm_num⟩

/-- C7 (amended): both Divide overloads fail — error reported, no coordinate
mutated — exactly when the signed divisor is below the small numerical
threshold (hence for every negative divisor as well); a divisor at or
above the threshold divides every coordinate (the two-argument form
additionally requires equal atom counts).  In particular dividing by `0`
and by `1e-20` fails without mutation. -/
theorem C7_divide_guard (f dividend : Frame) (d : ℚ) :
    (d < SMALL → f.Divide d = f ∧ f.DivideFrame dividend d = (1, f)) ∧
    (SMALL ≤ d →
      (∀ i, (f.Divide d).coord i =
          if i < f.ncoord then f.coord i / d else f.coord i) ∧
      (f.Divide d).natom = f.natom ∧ (f.Divide d).ncoord = f.ncoord ∧
      (f.natom = dividend.natom →
        (f.DivideFrame dividend d).1 = 0 ∧
        ∀ i, ((f.DivideFrame dividend d).2).coord i =
            if i < f.ncoord then dividend.coord i / d else f.coord i)) ∧
    f.Divide 0 = f ∧ f.Divide (1 / 100000000000000000000) = f := by
  have hz : (0 : ℚ) < SMALL := by norm_num [SMALL]
  have he : (1 / 100000000000000000000 : ℚ) < SMALL := by norm_num [SMALL]
  refine ⟨fun h => ⟨?_, ?_⟩, fun h => ?_, ?_, ?_⟩
  · simp only [Frame.Divide]; rw [if_pos h]
  · simp only [Frame.DivideFrame]; rw [if_pos h]
  · have hn : ¬ d < SMALL := not_lt.mpr h
    refine ⟨fun i => ?_, ?_, ?_, fun hnat => ⟨?_, fun i => ?_⟩⟩
    · simp only [Frame.Divide]
      rw [if_neg hn]
      simp only [Frame.coord]
      rw [writeAt_getD _ _ _ _ (Nat.zero_le _)]
      simp only [Nat.not_lt_zero, if_false, Nat.zero_add, List.length_map,
        List.length_range, Nat.sub_zero, mapRange_getD]
      by_cases hi : i < f.ncoord <;> simp [hi]
    · simp only [Frame.Divide]; rw [if_neg hn]
    · simp only [Frame.Divide]; rw [if_neg hn]
    · simp only [Frame.DivideFrame]
      rw [if_neg hn, if_neg (by simp [hnat])]
    · simp only [Frame.DivideFrame]
      rw [if_neg hn, if_neg (by simp [hnat])]
      simp only [Frame.coord]
      rw [writeAt_getD _ _ _ _ (Nat.zero_le _)]
      simp only [Nat.not_lt_zero, if_false, Nat.zero_add, List.length_map,
        List.length_range, Nat.sub_zero, mapRange_getD]
      by_cases hi : i < f.ncoord <;> simp [hi, Frame.coord]
  · simp only [Frame.Divide]; rw [if_pos hz]
  · simp only [Frame.Divide]; rw [if_pos he]

/-- C7 witness: a 1-atom frame with x-coordinate 2: dividing by `-1` (below
the signed guard) leaves it unchanged; dividing by `2` (above) yields 1. -/
theorem C7_divide_guard_witness :
    ((-1 : ℚ) < SMALL ∧
      Frame.Divide ⟨1, 1, 3, 0, [2, 0, 0], none, [], [0, 0, 0, 0, 0, 0]⟩ (-1) =
        ⟨1, 1, 3, 0, [2, 0, 0], none, [], [0, 0, 0, 0, 0, 0]⟩) ∧
    (SMALL ≤ (2 : ℚ) ∧
      (Frame.Divide ⟨1, 1, 3, 0, [2, 0, 0], none, [], [0, 0, 0, 0, 0, 0]⟩ 2).coord 0
        = 1) := by
  have h1 : (-1 : ℚ) < SMALL := by norm_num [SMALL]
  have h2 : SMALL ≤ (2 : ℚ) := by norm_num [SMALL]
  refine ⟨⟨h1, ?_⟩, ⟨h2, ?_⟩⟩
  · exact ((C7_divide_guard ⟨1, 1, 3, 0, [2, 0, 0], none, [], [0, 0, 0, 0, 0, 0]⟩
      ⟨1, 1, 3, 0, [2, 0, 0], none, [], [0, 0, 0, 0, 0, 0]⟩ (-1)).1 h1).1
  · have h := (((C7_divide_guard ⟨1, 1, 3, 0, [2, 0, 0], none, [], [0, 0, 0, 0, 0, 0]⟩
      ⟨1, 1, 3, 0, [2, 0, 0], none, [], [0, 0, 0, 0, 0, 0]⟩ 2).2.1 h2).1) 0
    rw [h]
    norm_num [Frame.coord]

-- ---------- C10: AddByMask ----------------------------------------------------

/-- C10: for a mask that fits the capacity, `AddByMask` only modifies the
coordinates of this frame's first `mask.size()` atoms — adding the
source's masked atoms in mask order at sequential destination indices —
and leaves every later coordinate slot and all other fields (atom count,
coordinate count, capacity, box, temperature, masses, velocities)
unchanged. -/
theorem C10_addByMask_effect (f src : Frame) (mask : List ℕ)
    (hcap : mask.length ≤ f.maxnatom) :
    (∀ j (hj : j < mask.length), ∀ k < 3,
      (f.AddByMask src mask).coord (3*j + k) =
        f.coord (3*j + k) + src.coord (3 * mask.get ⟨j, hj⟩ + k)) ∧
    (∀ i, 3 * mask.length ≤ i → (f.AddByMask src mask).coord i = f.coord i) ∧
    (f.AddByMask src mask).natom = f.natom ∧
    (f.AddByMask src mask).ncoord = f.ncoord ∧
    (f.AddByMask src mask).maxnatom = f.maxnatom ∧
    (f.AddByMask src mask).box = f.box ∧
    (f.AddByMask src mask).T = f.T ∧
    (f.AddByMask src mask).Mass = f.Mass ∧
    (f.AddByMask src mask).V = f.V := by
  have hguard : ¬ mask.length > f.maxnatom := not_lt.mpr hcap
  have hg : ∀ x ∈ mask.enum, (((fun p : ℕ × ℕ =>
      [f.X.getD (3*p.1) 0 + src.X.getD (3*p.2) 0,
       f.X.getD (3*p.1 + 1) 0 + src.X.getD (3*p.2 + 1) 0,
       f.X.getD (3*p.1 + 2) 0 + src.X.getD (3*p.2 + 2) 0])) x).length = 3 := by
    intro x _
    rfl
  have hwl : ((mask.enum.map (fun p : ℕ × ℕ =>
      [f.X.getD (3*p.1) 0 + src.X.getD (3*p.2) 0,
       f.X.getD (3*p.1 + 1) 0 + src.X.getD (3*p.2 + 1) 0,
       f.X.getD (3*p.1 + 2) 0 + src.X.getD (3*p.2 + 2) 0])).flatten).length
      = 3 * mask.length := by
    rw [flattenMap_length _ _ hg, List.enum_length]
  refine ⟨fun j hj k hk => ?_, fun i hi => ?_, by simp [Frame.AddByMask, hguard],
    by simp [Frame.AddByMask, hguard], by simp [Frame.AddByMask, hguard],
    by simp [Frame.AddByMask, hguard], by simp [Frame.AddByMask, hguard],
    by simp [Frame.AddByMask, hguard], by simp [Frame.AddByMask, hguard]⟩
  · simp only [Frame.AddByMask, hguard, if_false, Frame.coord]
    rw [writeAt_getD _ _ _ _ (Nat.zero_le _)]
    rw [if_neg (by omega), if_pos (by rw [Nat.zero_add, hwl]; omega), Nat.sub_zero]
    have hj2 : j < mask.enum.length := by rw [List.enum_length]; exact hj
    rw [flattenMap_getD _ _ hg j k hj2 hk]
    have hpair : mask.enum.get ⟨j, hj2⟩ = (j, mask.get ⟨j, hj⟩) := by
      simp [List.get_eq_getElem]
    rw [hpair]
    interval_cases k <;> simp [Frame.coord]
  · simp only [Frame.AddByMask, hguard, if_false, Frame.coord]
    rw [writeAt_getD _ _ _ _ (Nat.zero_le _)]
    rw [if_neg (by omega), if_neg (by rw [Nat.zero_add, hwl]; omega)]

/-- C10 witness: adding masked atom 1 of a 2-atom source into slot 0 of a
2-atom destination: slot 0 becomes `1 + 40`, the second atom's slots and
every other field stay put. -/
theorem C10_addByMask_effect_witness :
    ([1] : List ℕ).length ≤
      (⟨2, 2, 6, 0, [1,2,3,4,5,6], none, [], [0,0,0,0,0,0]⟩ : Frame).maxnatom ∧
    (Frame.AddByMask ⟨2, 2, 6, 0, [1,2,3,4,5,6], none, [], [0,0,0,0,0,0]⟩
      ⟨2, 2, 6, 0, [10,20,30,40,50,60], none, [], [0,0,0,0,0,0]⟩ [1]).coord 0 = 41 ∧
    (Frame.AddByMask ⟨2, 2, 6, 0, [1,2,3,4,5,6], none, [], [0,0,0,0,0,0]⟩
      ⟨2, 2, 6, 0, [10,20,30,40,50,60], none, [], [0,0,0,0,0,0]⟩ [1]).coord 3 = 4 ∧
    (Frame.AddByMask ⟨2, 2, 6, 0, [1,2,3,4,5,6], none, [], [0,0,0,0,0,0]⟩
      ⟨2, 2, 6, 0, [10,20,30,40,50,60], none, [], [0,0,0,0,0,0]⟩ [1]).natom = 2 := by
  have h := C10_addByMask_effect
    ⟨2, 2, 6, 0, [1,2,3,4,5,6], none, [], [0,0,0,0,0,0]⟩
    ⟨2, 2, 6, 0, [10,20,30,40,50,60], none, [], [0,0,0,0,0,0]⟩ [1] (by norm_num)
  refine ⟨by norm_num, ?_, ?_, h.2.2.1⟩
  · have hc := h.1 0 (by norm_num) 0 (by norm_num)
    norm_num at hc
    rw [hc]
    norm_num [Frame.coord, List.getD]
  · have hc := h.2.1 3 (by norm_num)
    rw [hc]
    norm_num [Frame.coord, List.getD]

-- ---------- C5: SetReferenceByMap / SetTargetByMap ---------------------------

theorem enumFrom_filter_snd_length (l : List ℤ) (p : ℤ → Bool) :
    ∀ n, ((List.enumFrom n l).filter (fun q => p q.2)).length = (l.filter p).length := by
  induction l with
  | nil => intro n; rfl
  | cons a t ih =>
    intro n
    simp only [List.enumFrom, List.filter]
    cases hpa : p a <;> simp [hpa, ih]

theorem mappedPositions_length (mapIn : List ℤ) :
    (mappedPositions mapIn).length = (mapIn.filter (fun v => v ≠ -1)).length := by
  simp only [mappedPositions, List.length_map, List.enum]
  exact enumFrom_filter_snd_length mapIn (fun v => decide (v ≠ -1)) 0

theorem mappedValues_length (mapIn : List ℤ) :
    (mappedValues mapIn).length = (mapIn.filter (fun v => v ≠ -1)).length := by
  simp [mappedValues]

/-- C5: with a map whose length equals the source's atom count and a
sufficient destination capacity, both by-map copies set the atom count to
the number of non `-1` map entries; `SetReferenceByMap` fills output slot
`j` with source atom `p_j` where `p_j` is the *position* of the j-th
mapped entry (the source pointer advances once per map entry,
unconditionally), whereas `SetTargetByMap` fills output slot `j` with
source atom `v_j` where `v_j` is the *value* of the j-th mapped entry. -/
theorem C5_map_asymmetry (f src : Frame) (mapIn : List ℤ)
    (hlen : mapIn.length = src.natom) (hcap : src.natom ≤ f.maxnatom) :
    (f.SetReferenceByMap src mapIn).natom = (mapIn.filter (fun v => v ≠ -1)).length ∧
    (f.SetTargetByMap src mapIn).natom = (mapIn.filter (fun v => v ≠ -1)).length ∧
    (f.SetReferenceByMap src mapIn).ncoord = 3 * (mapIn.filter (fun v => v ≠ -1)).length ∧
    (f.SetTargetByMap src mapIn).ncoord = 3 * (mapIn.filter (fun v => v ≠ -1)).length ∧
    (∀ j, j < (mappedPositions mapIn).length → ∀ k < 3,
      (f.SetReferenceByMap src mapIn).coord (3*j + k) =
        src.coord (3 * (mappedPositions mapIn).getD j 0 + k)) ∧
    (∀ j, j < (mappedValues mapIn).length → ∀ k < 3,
      (f.SetTargetByMap src mapIn).coord (3*j + k) =
        src.coord (3 * (mappedValues mapIn).getD j 0 + k)) := by
  have hg1 : ¬ src.natom > f.maxnatom := not_lt.mpr hcap
  have hg2 : ¬ mapIn.length ≠ src.natom := by simpa using hlen
  have hRef : f.SetReferenceByMap src mapIn =
      { f with
          X := writeAt f.X 0 (gather3 src.X (mappedPositions mapIn))
          ncoord := (gather3 src.X (mappedPositions mapIn)).length
          natom := (gather3 src.X (mappedPositions mapIn)).length / 3 } := by
    simp only [Frame.SetReferenceByMap]
    rw [if_neg hg1, if_neg hg2]
  have hTgt : f.SetTargetByMap src mapIn =
      { f with
          X := writeAt f.X 0 (gather3 src.X (mappedValues mapIn))
          ncoord := (gather3 src.X (mappedValues mapIn)).length
          natom := (gather3 src.X (mappedValues mapIn)).length / 3 } := by
    simp only [Frame.SetTargetByMap]
    rw [if_neg hg1, if_neg hg2]
  refine ⟨?_, ?_, ?_, ?_, fun j hj k hk => ?_, fun j hj k hk => ?_⟩
  · rw [hRef]
    show (gather3 src.X (mappedPositions mapIn)).length / 3 = _
    rw [gather3_length, Nat.mul_div_cancel_left _ (by norm_num),
      mappedPositions_length]
  · rw [hTgt]
    show (gather3 src.X (mappedValues mapIn)).length / 3 = _
    rw [gather3_length, Nat.mul_div_cancel_left _ (by norm_num),
      mappedValues_length]
  · rw [hRef]
    show (gather3 src.X (mappedPositions mapIn)).length = _
    rw [gather3_length, mappedPositions_length]
  · rw [hTgt]
    show (gather3 src.X (mappedValues mapIn)).length = _
    rw [gather3_length, mappedValues_length]
  · rw [hRef]
    show (writeAt f.X 0 (gather3 src.X (mappedPositions mapIn))).getD (3*j + k) 0 = _
    rw [writeAt_getD _ _ _ _ (Nat.zero_le _)]
    rw [if_neg (by omega), if_pos (by rw [Nat.zero_add, gather3_length]; omega),
      Nat.sub_zero, gather3_getD _ _ _ _ hj hk]
    rfl
  · rw [hTgt]
    show (writeAt f.X 0 (gather3 src.X (mappedValues mapIn))).getD (3*j + k) 0 = _
    rw [writeAt_getD _ _ _ _ (Nat.zero_le _)]
    rw [if_neg (by omega), if_pos (by rw [Nat.zero_add, gather3_length]; omega),
      Nat.sub_zero, gather3_getD _ _ _ _ hj hk]
    rfl

/-- C5 witness: source atoms `(1,2,3) (4,5,6) (7,8,9)` and map `[-1, 2, 0]`:
both copies keep 2 atoms, but `SetReferenceByMap` puts source atom 1
(x = 4) in slot 0 while `SetTargetByMap` puts source atom 2 (x = 7)
there. -/
theorem C5_map_asymmetry_witness :
    ([(-1 : ℤ), 2, 0].length = 3 ∧ (3 : ℕ) ≤ 3) ∧
    (Frame.SetReferenceByMap ⟨3, 3, 9, 0, [0,0,0,0,0,0,0,0,0], none, [], [0,0,0,0,0,0]⟩
      ⟨3, 3, 9, 0, [1,2,3,4,5,6,7,8,9], none, [], [0,0,0,0,0,0]⟩ [-1, 2, 0]).natom = 2 ∧
    (Frame.SetReferenceByMap ⟨3, 3, 9, 0, [0,0,0,0,0,0,0,0,0], none, [], [0,0,0,0,0,0]⟩
      ⟨3, 3, 9, 0, [1,2,3,4,5,6,7,8,9], none, [], [0,0,0,0,0,0]⟩ [-1, 2, 0]).coord 0 = 4 ∧
    (Frame.SetTargetByMap ⟨3, 3, 9, 0, [0,0,0,0,0,0,0,0,0], none, [], [0,0,0,0,0,0]⟩
      ⟨3, 3, 9, 0, [1,2,3,4,5,6,7,8,9], none, [], [0,0,0,0,0,0]⟩ [-1, 2, 0]).coord 0 = 7 := by
  have h := C5_map_asymmetry
    ⟨3, 3, 9, 0, [0,0,0,0,0,0,0,0,0], none, [], [0,0,0,0,0,0]⟩
    ⟨3, 3, 9, 0, [1,2,3,4,5,6,7,8,9], none, [], [0,0,0,0,0,0]⟩ [-1, 2, 0]
    (by norm_num) (by norm_num)
  have hpos : mappedPositions [-1, 2, 0] = [1, 2] := by decide
  have hval : mappedValues [-1, 2, 0] = [2, 0] := by decide
  refine ⟨⟨by norm_num, by norm_num⟩, ?_, ?_, ?_⟩
  · rw [h.1]; decide
  · have h5 := h.2.2.2.2.1 0 (by rw [hpos]; norm_num) 0 (by norm_num)
    rw [hpos] at h5
    simpa [Frame.coord] using h5
  · have h6 := h.2.2.2.2.2 0 (by rw [hval]; norm_num) 0 (by norm_num)
    rw [hval] at h6
    simpa [Frame.coord] using h6

-- ---------- C4: the masked copy constructor ----------------------------------

/-- C4 counterexample: a 1-atom source frame with velocities but an empty
mass array: the masked copy does NOT copy the velocity data (the velocity
branch of the constructor is nested inside the nonempty-mass branch),
refuting "copies velocity data iff source has velocities". -/
theorem C4_maskedCopy_velocity_counterexample :
    (Frame.maskedCopy ⟨1, 1, 3, 0, [1, 2, 3], some [4, 5, 6], [], [0,0,0,0,0,0]⟩
      [0]).V = none ∧
    (⟨1, 1, 3, 0, [1, 2, 3], some [4, 5, 6], [], [0,0,0,0,0,0]⟩ : Frame).V ≠ none := by
  exact ⟨by simp [Frame.maskedCopy], by simp⟩

/-- C4 (amended): `Create(F, M)` yields `atomCount = M.size()` with the
coordinates of the selected atoms in mask iteration order, and copies box
and temperature verbatim; mass data is copied iff the mask is nonempty
and F has masses, and velocity data is copied iff the mask is nonempty
and F has BOTH masses and velocities (the counterexample forces the
extra mass condition; a velocity-only source loses its velocities). -/
theorem C4_maskedCopy_spec (src : Frame) (mask : List ℕ) :
    (src.maskedCopy mask).natom = mask.length ∧
    (src.maskedCopy mask).ncoord = mask.length * 3 ∧
    (∀ j, j < mask.length → ∀ k < 3,
      (src.maskedCopy mask).coord (3*j + k) = src.coord (3 * mask.getD j 0 + k)) ∧
    (src.maskedCopy mask).box = src.box ∧
    (src.maskedCopy mask).T = src.T ∧
    ((src.maskedCopy mask).Mass ≠ [] ↔ (mask ≠ [] ∧ src.Mass ≠ [])) ∧
    ((src.maskedCopy mask).V ≠ none ↔ (mask ≠ [] ∧ src.Mass ≠ [] ∧ src.V ≠ none)) ∧
    (∀ j, j < mask.length → src.Mass ≠ [] →
      (src.maskedCopy mask).Mass.getD j 0 = src.Mass.getD (mask.getD j 0) 0) ∧
    (mask ≠ [] → src.Mass ≠ [] → src.V ≠ none →
      (src.maskedCopy mask).V = some (gather3 (src.V.getD []) mask)) := by
  refine ⟨rfl, rfl, fun j hj k hk => ?_, rfl, rfl, ?_, ?_, fun j hj hm => ?_,
    fun h1 h2 h3 => ?_⟩
  · show (gather3 src.X mask).getD (3*j + k) 0 = _
    rw [gather3_getD _ _ _ _ hj hk]
    rfl
  · show (if mask.length ≠ 0 ∧ src.Mass ≠ [] then _ else ([] : List ℚ)) ≠ [] ↔ _
    by_cases h : mask.length ≠ 0 ∧ src.Mass ≠ []
    · rw [if_pos h]
      simp only [ne_eq, List.map_eq_nil_iff]
      constructor
      · intro _
        exact ⟨by simpa [List.length_eq_zero] using h.1, h.2⟩
      · intro hc
        simpa [List.length_eq_zero] using h.1
    · rw [if_neg h]
      simp only [ne_eq, not_true_eq_false, false_iff]
      intro hc
      exact h ⟨by simpa [List.length_eq_zero] using hc.1, hc.2⟩
  · show (if mask.length ≠ 0 ∧ src.Mass ≠ [] ∧ src.V ≠ none then
        some (gather3 (src.V.getD []) mask) else none) ≠ none ↔ _
    by_cases h : mask.length ≠ 0 ∧ src.Mass ≠ [] ∧ src.V ≠ none
    · rw [if_pos h]
      simp only [ne_eq, reduceCtorEq, not_false_eq_true, true_iff]
      exact ⟨by simpa [List.length_eq_zero] using h.1, h.2.1, h.2.2⟩
    · rw [if_neg h]
      simp only [ne_eq, not_true_eq_false, false_iff]
      intro hc
      exact h ⟨by simpa [List.length_eq_zero] using hc.1, hc.2.1, hc.2.2⟩
  · have hne : mask.length ≠ 0 := by omega
    show (if mask.length ≠ 0 ∧ src.Mass ≠ [] then
        mask.map (fun a => src.Mass.getD a 0) else []).getD j 0 = _
    rw [if_pos ⟨hne, hm⟩, List.getD_eq_getElem?_getD, List.getElem?_map,
      List.getElem?_eq_getElem hj]
    have hgd : mask.getD j 0 = mask.get ⟨j, hj⟩ := by
      rw [List.getD_eq_getElem?_getD, List.getElem?_eq_getElem hj]
      rfl
    rw [hgd]
    rfl
  · have hne : mask.length ≠ 0 := by
      simpa [List.length_eq_zero] using h1
    show (if mask.length ≠ 0 ∧ src.Mass ≠ [] ∧ src.V ≠ none then
        some (gather3 (src.V.getD []) mask) else none) = _
    rw [if_pos ⟨hne, h2, h3⟩]

/-- C4 witness: a 2-atom source with masses and velocities, mask `[1]`: the
copy keeps one atom whose coordinates, mass and velocity come from source
atom 1, and box and temperature verbatim. -/
theorem C4_maskedCopy_spec_witness :
    (Frame.maskedCopy ⟨2, 2, 6, 7, [1,2,3,4,5,6], some [9,8,7,6,5,4], [10, 20],
        [1,2,3,4,5,6]⟩ [1]).natom = 1 ∧
    (Frame.maskedCopy ⟨2, 2, 6, 7, [1,2,3,4,5,6], some [9,8,7,6,5,4], [10, 20],
        [1,2,3,4,5,6]⟩ [1]).coord 0 = 4 ∧
    (Frame.maskedCopy ⟨2, 2, 6, 7, [1,2,3,4,5,6], some [9,8,7,6,5,4], [10, 20],
        [1,2,3,4,5,6]⟩ [1]).Mass.getD 0 0 = 20 ∧
    (Frame.maskedCopy ⟨2, 2, 6, 7, [1,2,3,4,5,6], some [9,8,7,6,5,4], [10, 20],
        [1,2,3,4,5,6]⟩ [1]).V = some [6, 5, 4] ∧
    (Frame.maskedCopy ⟨2, 2, 6, 7, [1,2,3,4,5,6], some [9,8,7,6,5,4], [10, 20],
        [1,2,3,4,5,6]⟩ [1]).T = 7 := by
  have h := C4_maskedCopy_spec
    ⟨2, 2, 6, 7, [1,2,3,4,5,6], some [9,8,7,6,5,4], [10, 20], [1,2,3,4,5,6]⟩ [1]
  refine ⟨h.1, ?_, ?_, ?_, h.2.2.2.2.1⟩
  · have hc := h.2.2.1 0 (by norm_num) 0 (by norm_num)
    simpa [Frame.coord] using hc
  · have hm := h.2.2.2.2.2.2.2.1 0 (by norm_num) (by simp)
    simpa using hm
  · have hv := h.2.2.2.2.2.2.2.2 (by simp) (by simp) (by simp)
    rw [hv]
    simp [gather3, Frame.coord]

-- ---------- C6: the ncoord == natom*3 invariant -------------------------------

/-- The spec's coordinate-count invariant: `coordinateCount == atomCount * 3`. -/
def coordInv (f : Frame) : Prop := f.ncoord = f.natom * 3

/-- C6 counterexample: `SetFromCRD` with a 4-float array and no box values on
a frame of capacity 2 passes the capacity guard (4 <= 6) and sets
`ncoord_ = 4` but `natom_ = 4/3 = 1` (int division), breaking the
invariant as soon as the float count is not a multiple of 3. -/
theorem C6_setFromCRD_counterexample :
    (Frame.SetFromCRD (frameSized 2) [1, 2, 3, 4] 0).ncoord = 4 ∧
    (Frame.SetFromCRD (frameSized 2) [1, 2, 3, 4] 0).natom = 1 ∧
    ¬ coordInv (Frame.SetFromCRD (frameSized 2) [1, 2, 3, 4] 0) := by
  refine ⟨?_, ?_, ?_⟩ <;> simp [Frame.SetFromCRD, frameSized, coordInv]

/-- C6 (amended): the invariant `ncoord == natom*3` holds after construction,
every Setup routine, every mask- and map-based copy, AddXYZ/AddVec3 and
every arithmetic operator; for `SetFromCRD` it holds provided the non-box
float count is a nonnegative multiple of 3 (well-formed CRD input — the
extra condition the counterexample forces). -/
theorem C6_coord_invariant
    (f g src : Frame) (n : ℕ) (atoms : List ℚ) (mask : List ℕ)
    (mapIn : List ℤ) (Xin farray : List ℚ) (numBox : ℕ) (bv : Bool)
    (v : V3) (d : ℚ) :
    coordInv (frameSized n) ∧
    coordInv (frameFromAtoms atoms) ∧
    coordInv (Frame.maskedCopy src mask) ∧
    coordInv (f.SetupFrame n) ∧
    coordInv (f.SetupFrameM atoms) ∧
    coordInv (f.SetupFrameV atoms bv) ∧
    coordInv (f.SetupFrameFromMask mask atoms) ∧
    (coordInv f → coordInv (f.SetCoordinatesByMask Xin mask)) ∧
    (coordInv f → coordInv (f.SetCoordinatesMask src mask)) ∧
    (coordInv f → coordInv (f.SetCoordinatesFrame src)) ∧
    (coordInv f → coordInv (f.SetFrame src mask)) ∧
    (coordInv f → coordInv (f.SetCoordinatesByMap src mapIn)) ∧
    (coordInv f → coordInv (f.SetReferenceByMap src mapIn)) ∧
    (coordInv f → coordInv (f.SetTargetByMap src mapIn)) ∧
    (coordInv f → numBox ≤ farray.length → 3 ∣ (farray.length - numBox) →
      coordInv (f.SetFromCRD farray numBox)) ∧
    (coordInv f → coordInv (f.AddXYZ v)) ∧
    (coordInv f → coordInv (f.AddVec3 v)) ∧
    (coordInv f → coordInv (f.addFrame g)) ∧
    (coordInv f → coordInv (f.subFrame g)) ∧
    (coordInv f → coordInv (f.mulFrame g)) ∧
    (coordInv f → coordInv ((f.DivideFrame g d).2)) ∧
    (coordInv f → coordInv (f.Divide d)) := by
  have hmap3 : ∀ (X : List ℚ) (idxs : List ℕ),
      (gather3 X idxs).length = (gather3 X idxs).length / 3 * 3 := by
    intro X idxs
    rw [gather3_length, Nat.mul_div_cancel_left _ (by norm_num)]
    ring
  refine ⟨rfl, ?_, rfl, rfl, ?_, ?_, ?_, ?_, ?_, ?_, ?_, ?_, ?_, ?_, ?_, ?_, ?_,
    ?_, ?_, ?_, ?_, ?_⟩
  · simp [frameFromAtoms, coordInv]
  · simp [Frame.SetupFrameM, coordInv]
  · simp [Frame.SetupFrameV, coordInv]
  · simp [Frame.SetupFrameFromMask, coordInv]
  · intro h
    simp only [Frame.SetCoordinatesByMask, coordInv]
    split
    · exact h
    · rfl
  · intro h
    simp only [Frame.SetCoordinatesMask, coordInv]
    split
    · exact h
    · rfl
  · intro h
    simp only [Frame.SetCoordinatesFrame, coordInv]
    split
    · exact h
    · rfl
  · intro h
    simp only [Frame.SetFrame, coordInv]
    split
    · exact h
    · rfl
  · intro h
    simp only [Frame.SetCoordinatesByMap, coordInv]
    split
    · exact h
    split
    · exact h
    · rfl
  · intro h
    simp only [Frame.SetReferenceByMap, coordInv]
    split
    · exact h
    split
    · exact h
    · exact hmap3 src.X (mappedPositions mapIn)
  · intro h
    simp only [Frame.SetTargetByMap, coordInv]
    split
    · exact h
    split
    · exact h
    · exact hmap3 src.X (mappedValues mapIn)
  · intro h hle hdvd
    simp only [Frame.SetFromCRD, coordInv]
    split
    · exact h
    · exact (Nat.div_mul_cancel hdvd).symm
  · intro h
    simp only [Frame.AddXYZ, Frame.ReallocateX, coordInv] at h ⊢
    split <;> (try dsimp only) <;> omega
  · intro h
    simp only [Frame.AddVec3, Frame.ReallocateX, coordInv] at h ⊢
    split <;> (try dsimp only) <;> omega
  · intro h
    simp only [Frame.addFrame, coordInv]
    split <;> exact h
  · intro h
    simp only [Frame.subFrame, coordInv]
    split <;> exact h
  · intro h
    simp only [Frame.mulFrame, coordInv]
    split <;> exact h
  · intro h
    simp only [Frame.DivideFrame, coordInv]
    split
    · exact h
    split
    · exact h
    · exact h
  · intro h
    simp only [Frame.Divide, coordInv]
    split <;> exact h

/-- C6 witness: the invariant verified on a concrete frame through the
conditional conjuncts: a well-formed 6-float `SetFromCRD` and an
`AddXYZ` on a freshly sized 2-atom frame. -/
theorem C6_coord_invariant_witness :
    coordInv (frameSized 2) ∧ (0 : ℕ) ≤ ([1,2,3,4,5,6] : List ℚ).length ∧
    (3 ∣ (([1,2,3,4,5,6] : List ℚ).length - 0)) ∧
    coordInv (Frame.SetFromCRD (frameSized 2) [1,2,3,4,5,6] 0) ∧
    coordInv ((frameSized 2).AddXYZ ⟨1, 2, 3⟩) := by
  have h := C6_coord_invariant (frameSized 2) (frameSized 2) (frameSized 2) 2
    [] [] [] [] [1,2,3,4,5,6] 0 false ⟨1, 2, 3⟩ 0
  have hinv : coordInv (frameSized 2) := h.1
  exact ⟨hinv, by norm_num, by norm_num,
    h.2.2.2.2.2.2.2.2.2.2.2.2.2.2.1 hinv (by norm_num) (by norm_num),
    h.2.2.2.2.2.2.2.2.2.2.2.2.2.2.2.1 hinv⟩

-- ---------- C8: DISTRMSD -------------------------------------------------------

/-- C8 counterexample: a frame with a NONZERO atom count of 1 has ZERO
pairwise distances — `Ndistances = (1*1 - 1)/2 = 0` — so the
normalization divisor vanishes for N = 1 too, not only for the claimed
N = 0 case. -/
theorem C8_nDistances_counterexample :
    (⟨1, 1, 3, 0, [1, 2, 3], none, [], [0,0,0,0,0,0]⟩ : Frame).natom ≠ 0 ∧
    Frame.nDistances ⟨1, 1, 3, 0, [1, 2, 3], none, [], [0,0,0,0,0,0]⟩ = 0 := by
  exact ⟨by norm_num, rfl⟩

/-- C8 (amended): for frames of equal atom count AT LEAST 2 (the
counterexample shows one atom also yields zero pairs) the pair count
`N*(N-1)/2` is nonzero and `DISTRMSD` equals the square root of the mean
squared difference of corresponding intra-frame pairwise distances,
the mean taken over the set of unordered pairs `i < j`. -/
theorem pairSum_eq (n : ℕ) (g : ℕ → ℕ → ℚ) :
    ∑ p ∈ (Finset.range n ×ˢ Finset.range n).filter (fun p => p.1 < p.2), g p.1 p.2
      = ∑ a1 ∈ Finset.range (n - 1), ∑ a2 ∈ Finset.Ico (a1 + 1) n, g a1 a2 := by
  rw [Finset.sum_filter, Finset.sum_product]
  have h1 : ∀ a1 ∈ Finset.range n,
      (∑ a2 ∈ Finset.range n,
          if (a1, a2).1 < (a1, a2).2 then g (a1, a2).1 (a1, a2).2 else 0)
        = ∑ a2 ∈ Finset.Ico (a1 + 1) n, g a1 a2 := by
    intro a1 _
    rw [← Finset.sum_filter]
    apply Finset.sum_congr
    · ext a2
      simp only [Finset.mem_filter, Finset.mem_range, Finset.mem_Ico]
      omega
    · intro a2 _
      rfl
  rw [Finset.sum_congr rfl h1]
  symm
  apply Finset.sum_subset (Finset.range_subset.mpr (by omega))
  intro x hx hnx
  have he : Finset.Ico (x + 1) n = ∅ := by
    rw [Finset.Ico_eq_empty_iff]
    simp only [Finset.mem_range] at hx hnx
    omega
  rw [he, Finset.sum_empty]

theorem C8_distrmsd_spec (sq : ℚ → ℚ) (f Ref : Frame)
    (hn : f.natom = Ref.natom) (h2 : 2 ≤ f.natom) :
    0 < f.nDistances ∧
    Frame.DISTRMSD sq f Ref =
      sq ((∑ p ∈ (Finset.range f.natom ×ˢ Finset.range f.natom).filter
            (fun p => p.1 < p.2),
          (sq (f.pairDistSq p.1 p.2) - sq (Ref.pairDistSq p.1 p.2)) *
          (sq (f.pairDistSq p.1 p.2) - sq (Ref.pairDistSq p.1 p.2)))
        / (f.nDistances : ℚ)) := by
  constructor
  · have h1 : f.natom * 2 ≤ f.natom * f.natom :=
      Nat.mul_le_mul (Nat.le_refl f.natom) h2
    show 0 < (f.natom * f.natom - f.natom) / 2
    omega
  · rw [pairSum_eq f.natom (fun a1 a2 =>
      (sq (f.pairDistSq a1 a2) - sq (Ref.pairDistSq a1 a2)) *
      (sq (f.pairDistSq a1 a2) - sq (Ref.pairDistSq a1 a2)))]
    rfl

/-- C8 witness: two 2-atom frames with spacing 1 and 2 along x, with the
identity as sqrt oracle: one pair, squared-distance difference
`(1 - 4)^2 = 9`, mean `9/1`, result 9. -/
theorem C8_distrmsd_spec_witness :
    (⟨2, 2, 6, 0, [0,0,0,1,0,0], none, [], [0,0,0,0,0,0]⟩ : Frame).natom =
      (⟨2, 2, 6, 0, [0,0,0,2,0,0], none, [], [0,0,0,0,0,0]⟩ : Frame).natom ∧
    2 ≤ (⟨2, 2, 6, 0, [0,0,0,1,0,0], none, [], [0,0,0,0,0,0]⟩ : Frame).natom ∧
    0 < Frame.nDistances ⟨2, 2, 6, 0, [0,0,0,1,0,0], none, [], [0,0,0,0,0,0]⟩ ∧
    Frame.DISTRMSD (fun x => x) ⟨2, 2, 6, 0, [0,0,0,1,0,0], none, [], [0,0,0,0,0,0]⟩
      ⟨2, 2, 6, 0, [0,0,0,2,0,0], none, [], [0,0,0,0,0,0]⟩ = 9 := by
  have h := C8_distrmsd_spec (fun x => x)
    ⟨2, 2, 6, 0, [0,0,0,1,0,0], none, [], [0,0,0,0,0,0]⟩
    ⟨2, 2, 6, 0, [0,0,0,2,0,0], none, [], [0,0,0,0,0,0]⟩ rfl (by norm_num)
  refine ⟨rfl, by norm_num, h.1, ?_⟩
  rw [h.2]
  norm_num [Frame.pairDistSq, Frame.coord, Frame.nDistances, Finset.sum_filter,
    Finset.sum_product, Finset.sum_range_succ, List.getD]

-- ---------- Lemmas about Translate / NegTranslate ----------------------------

theorem Translate_coord_lt (f : Frame) (v : V3) (a k : ℕ)
    (ha : a < f.natom) (hk : k < 3) :
    (f.Translate v).coord (3*a + k) =
      f.coord (3*a + k) + (if k = 0 then v.x else if k = 1 then v.y else v.z) := by
  have hg : ∀ x ∈ List.range f.natom, ((fun a => [f.coord (3*a) + v.x,
      f.coord (3*a + 1) + v.y, f.coord (3*a + 2) + v.z]) x).length = 3 := by
    intro x _
    rfl
  show (writeAt f.X 0 _).getD (3*a + k) 0 = _
  rw [writeAt_getD _ _ _ _ (Nat.zero_le _)]
  rw [if_neg (by omega), if_pos (by
    rw [Nat.zero_add, flattenMap_length _ _ hg, List.length_range]
    omega), Nat.sub_zero]
  rw [flattenMap_getD _ _ hg a k (by simpa using ha) hk]
  rw [List.get_range]
  interval_cases k <;> simp

theorem Translate_coord_ge (f : Frame) (v : V3) (i : ℕ)
    (hi : 3 * f.natom ≤ i) :
    (f.Translate v).coord i = f.coord i := by
  have hg : ∀ x ∈ List.range f.natom, ((fun a => [f.coord (3*a) + v.x,
      f.coord (3*a + 1) + v.y, f.coord (3*a + 2) + v.z]) x).length = 3 := by
    intro x _
    rfl
  show (writeAt f.X 0 _).getD i 0 = _
  rw [writeAt_getD _ _ _ _ (Nat.zero_le _)]
  rw [if_neg (by omega), if_neg (by
    rw [Nat.zero_add, flattenMap_length _ _ hg, List.length_range]
    omega)]
  rfl

theorem Translate_coord_xyz (f : Frame) (v : V3) (a : ℕ) (ha : a < f.natom) :
    (f.Translate v).coord (3*a) = f.coord (3*a) + v.x ∧
    (f.Translate v).coord (3*a + 1) = f.coord (3*a + 1) + v.y ∧
    (f.Translate v).coord (3*a + 2) = f.coord (3*a + 2) + v.z := by
  refine ⟨?_, ?_, ?_⟩
  · have h := Translate_coord_lt f v a 0 ha (by norm_num)
    simpa using h
  · have h := Translate_coord_lt f v a 1 ha (by norm_num)
    simpa using h
  · have h := Translate_coord_lt f v a 2 ha (by norm_num)
    simpa using h

theorem NegTranslate_coord_lt (f : Frame) (v : V3) (a k : ℕ)
    (ha : a < f.natom) (hk : k < 3) :
    (f.NegTranslate v).coord (3*a + k) =
      f.coord (3*a + k) - (if k = 0 then v.x else if k = 1 then v.y else v.z) := by
  have hg : ∀ x ∈ List.range f.natom, ((fun a => [f.coord (3*a) - v.x,
      f.coord (3*a + 1) - v.y, f.coord (3*a + 2) - v.z]) x).length = 3 := by
    intro x _
    rfl
  show (writeAt f.X 0 _).getD (3*a + k) 0 = _
  rw [writeAt_getD _ _ _ _ (Nat.zero_le _)]
  rw [if_neg (by omega), if_pos (by
    rw [Nat.zero_add, flattenMap_length _ _ hg, List.length_range]
    omega), Nat.sub_zero]
  rw [flattenMap_getD _ _ hg a k (by simpa using ha) hk]
  rw [List.get_range]
  interval_cases k <;> simp

theorem NegTranslate_coord_xyz (f : Frame) (v : V3) (a : ℕ) (ha : a < f.natom) :
    (f.NegTranslate v).coord (3*a) = f.coord (3*a) - v.x ∧
    (f.NegTranslate v).coord (3*a + 1) = f.coord (3*a + 1) - v.y ∧
    (f.NegTranslate v).coord (3*a + 2) = f.coord (3*a + 2) - v.z := by
  refine ⟨?_, ?_, ?_⟩
  · have h := NegTranslate_coord_lt f v a 0 ha (by norm_num)
    simpa using h
  · have h := NegTranslate_coord_lt f v a 1 ha (by norm_num)
    simpa using h
  · have h := NegTranslate_coord_lt f v a 2 ha (by norm_num)
    simpa using h

/-- Above the weight guard, `RMSD_CenteredRef` always (on both the
diagonalization-failure and success paths) leaves `this` translated by the
negated centroid and reports that vector through `Trans`. -/
theorem rmsdCenteredRef_frame_trans (sq : ℚ → ℚ) (diag : M3 → Option (V3 × M3))
    (f Ref : Frame) (useMass : Bool) (U0 : M3)
    (hw : ¬ f.totalWeight useMass < SMALL) :
    (Frame.RMSD_CenteredRef sq diag f Ref useMass U0).frame =
      f.Translate (f.rmsdTrans useMass) ∧
    (Frame.RMSD_CenteredRef sq diag f Ref useMass U0).Trans =
      f.rmsdTrans useMass := by
  simp only [Frame.RMSD_CenteredRef]
  rw [if_neg hw]
  cases hd : diag ((Frame.kabschR (f.Translate (f.rmsdTrans useMass)) Ref
      useMass).transposeMult
      (Frame.kabschR (f.Translate (f.rmsdTrans useMass)) Ref useMass)) with
  | none => exact ⟨rfl, rfl⟩
  | some p =>
    obtain ⟨e, ev⟩ := p
    exact ⟨rfl, rfl⟩

-- ---------- C3: the zero-total-weight guard -----------------------------------

/-- C3: when the total weight (mass sum if mass-weighted, else atom count) is
below the numerical threshold, `RMSD_CenteredRef` — and hence the fitted
`RMSD` built on it — reports the sentinel `-1` with no further
computation: this frame is returned completely unchanged (in particular
its coordinates are not translated) and `U` is untouched. -/
theorem C3_rmsd_zero_weight (sq : ℚ → ℚ) (diag : M3 → Option (V3 × M3))
    (f Ref : Frame) (useMass : Bool) (U0 : M3)
    (hw : f.totalWeight useMass < SMALL) :
    (Frame.RMSD_CenteredRef sq diag f Ref useMass U0).val = -1 ∧
    (Frame.RMSD_CenteredRef sq diag f Ref useMass U0).frame = f ∧
    (Frame.RMSD_CenteredRef sq diag f Ref useMass U0).U = U0 ∧
    (Frame.RMSD sq diag f Ref useMass U0).val = -1 ∧
    (Frame.RMSD sq diag f Ref useMass U0).frame = f := by
  have h1 : ∀ R : Frame, Frame.RMSD_CenteredRef sq diag f R useMass U0 =
      ⟨-1, f, U0, f.transSum useMass⟩ := by
    intro R
    simp only [Frame.RMSD_CenteredRef]
    rw [if_pos hw]
  refine ⟨?_, ?_, ?_, ?_, ?_⟩
  · rw [h1]
  · rw [h1]
  · rw [h1]
  · simp only [Frame.RMSD]
    rw [h1]
  · simp only [Frame.RMSD]
    rw [h1]

/-- C3 witness: a 0-atom frame has total (unweighted) weight 0, below the
threshold; the sentinel is returned and the frame is unchanged. -/
theorem C3_rmsd_zero_weight_witness :
    (⟨0, 0, 0, 0, [], none, [], [0,0,0,0,0,0]⟩ : Frame).totalWeight false < SMALL ∧
    (Frame.RMSD_CenteredRef (fun x => x) (fun _ => none)
      ⟨0, 0, 0, 0, [], none, [], [0,0,0,0,0,0]⟩
      ⟨0, 0, 0, 0, [], none, [], [0,0,0,0,0,0]⟩ false M3.zero).val = -1 ∧
    (Frame.RMSD_CenteredRef (fun x => x) (fun _ => none)
      ⟨0, 0, 0, 0, [], none, [], [0,0,0,0,0,0]⟩
      ⟨0, 0, 0, 0, [], none, [], [0,0,0,0,0,0]⟩ false M3.zero).frame =
      ⟨0, 0, 0, 0, [], none, [], [0,0,0,0,0,0]⟩ := by
  have hw : (⟨0, 0, 0, 0, [], none, [], [0,0,0,0,0,0]⟩ : Frame).totalWeight false
      < SMALL := by
    norm_num [Frame.totalWeight, SMALL]
  have h := C3_rmsd_zero_weight (fun x => x) (fun _ => none)
    ⟨0, 0, 0, 0, [], none, [], [0,0,0,0,0,0]⟩
    ⟨0, 0, 0, 0, [], none, [], [0,0,0,0,0,0]⟩ false M3.zero hw
  exact ⟨hw, h.1, h.2.1⟩

-- ---------- C9: the diagonalization-failure path ------------------------------

/-- C9: if the eigendecomposition fails, `RMSD_CenteredRef` returns 0 and
leaves `U` untouched — but by then this frame's stored coordinates have
already been permanently translated by the negated (optionally
mass-weighted) centroid, and `Trans` already holds that vector; the error
return does not restore the prior coordinates, so the path is not
atomic. -/
theorem C9_diag_failure (sq : ℚ → ℚ) (diag : M3 → Option (V3 × M3))
    (f Ref : Frame) (useMass : Bool) (U0 : M3)
    (hw : ¬ f.totalWeight useMass < SMALL)
    (hd : diag ((Frame.kabschR (f.Translate (f.rmsdTrans useMass)) Ref
        useMass).transposeMult
        (Frame.kabschR (f.Translate (f.rmsdTrans useMass)) Ref useMass)) = none) :
    (Frame.RMSD_CenteredRef sq diag f Ref useMass U0).val = 0 ∧
    (Frame.RMSD_CenteredRef sq diag f Ref useMass U0).U = U0 ∧
    (Frame.RMSD_CenteredRef sq diag f Ref useMass U0).Trans =
      f.rmsdTrans useMass ∧
    (Frame.RMSD_CenteredRef sq diag f Ref useMass U0).frame =
      f.Translate (f.rmsdTrans useMass) ∧
    (∀ a, a < f.natom →
      (Frame.RMSD_CenteredRef sq diag f Ref useMass U0).frame.coord (3*a) =
        f.coord (3*a) + (f.rmsdTrans useMass).x ∧
      (Frame.RMSD_CenteredRef sq diag f Ref useMass U0).frame.coord (3*a + 1) =
        f.coord (3*a + 1) + (f.rmsdTrans useMass).y ∧
      (Frame.RMSD_CenteredRef sq diag f Ref useMass U0).frame.coord (3*a + 2) =
        f.coord (3*a + 2) + (f.rmsdTrans useMass).z) := by
  have hmain : Frame.RMSD_CenteredRef sq diag f Ref useMass U0 =
      ⟨0, f.Translate (f.rmsdTrans useMass), U0, f.rmsdTrans useMass⟩ := by
    simp only [Frame.RMSD_CenteredRef]
    rw [if_neg hw, hd]
  refine ⟨by rw [hmain], by rw [hmain], by rw [hmain], by rw [hmain],
    fun a ha => ?_⟩
  rw [hmain]
  exact Translate_coord_xyz f (f.rmsdTrans useMass) a ha

/-- C9 witness: a 1-atom frame at `(1,2,3)`, unweighted, with an
always-failing eigensolver: the return value is 0, yet the atom has been
moved to the origin and `Trans` is `(-1,-2,-3)`. -/
theorem C9_diag_failure_witness :
    (¬ (⟨1, 1, 3, 0, [1, 2, 3], none, [], [0,0,0,0,0,0]⟩ : Frame).totalWeight false
        < SMALL) ∧
    (Frame.RMSD_CenteredRef (fun x => x) (fun _ => none)
      ⟨1, 1, 3, 0, [1, 2, 3], none, [], [0,0,0,0,0,0]⟩
      ⟨1, 1, 3, 0, [0, 0, 0], none, [], [0,0,0,0,0,0]⟩ false M3.zero).val = 0 ∧
    (Frame.RMSD_CenteredRef (fun x => x) (fun _ => none)
      ⟨1, 1, 3, 0, [1, 2, 3], none, [], [0,0,0,0,0,0]⟩
      ⟨1, 1, 3, 0, [0, 0, 0], none, [], [0,0,0,0,0,0]⟩ false M3.zero).Trans.x = -1 ∧
    (Frame.RMSD_CenteredRef (fun x => x) (fun _ => none)
      ⟨1, 1, 3, 0, [1, 2, 3], none, [], [0,0,0,0,0,0]⟩
      ⟨1, 1, 3, 0, [0, 0, 0], none, [], [0,0,0,0,0,0]⟩ false M3.zero).frame.coord 0
      = 0 := by
  have hw : ¬ (⟨1, 1, 3, 0, [1, 2, 3], none, [], [0,0,0,0,0,0]⟩ : Frame).totalWeight
      false < SMALL := by
    norm_num [Frame.totalWeight, SMALL]
  have h := C9_diag_failure (fun x => x) (fun _ => none)
    ⟨1, 1, 3, 0, [1, 2, 3], none, [], [0,0,0,0,0,0]⟩
    ⟨1, 1, 3, 0, [0, 0, 0], none, [], [0,0,0,0,0,0]⟩ false M3.zero hw rfl
  refine ⟨hw, h.1, ?_, ?_⟩
  · rw [h.2.2.1]
    norm_num [Frame.rmsdTrans, Frame.transSum, Frame.totalWeight, V3.neg,
      Frame.coord, Finset.sum_range_succ, List.getD]
  · have hc := (h.2.2.2.2 0 (by norm_num)).1
    norm_num at hc
    rw [hc]
    norm_num [Frame.rmsdTrans, Frame.transSum, Frame.totalWeight, V3.neg,
      Frame.coord, Finset.sum_range_succ, List.getD]

-- ---------- C2: side effects of the four-output RMSD --------------------------

/-- The `Trans` vector of the fit is exactly the negated (optionally
mass-weighted) centroid of this frame over its `natom_` atoms. -/
theorem rmsdTrans_eq_neg_center (f : Frame) (useMass : Bool) :
    f.rmsdTrans useMass =
      V3.neg (if useMass then f.VCenterOfMass 0 f.natom
              else f.VGeometricCenter 0 f.natom) := by
  cases useMass with
  | true =>
    simp only [Frame.rmsdTrans, Frame.transSum, Frame.totalWeight,
      Frame.VCenterOfMass, if_true, V3.neg, Finset.range_eq_Ico]
  | false =>
    simp only [Frame.rmsdTrans, Frame.transSum, Frame.totalWeight,
      Frame.VGeometricCenter, if_false, Bool.false_eq_true, V3.neg,
      Finset.range_eq_Ico, Nat.sub_zero]

/-- C2: for frames with equal atom count and total weight at or above the
threshold, the four-output `RMSD`: (a) reports through `refTrans` the
reference's original (optionally mass-weighted) centroid; (b) permanently
translates `Ref` by its negation (so `Ref` ends at its centroid);
(c) reports through `Trans` the negation of this frame's original
centroid; (d) permanently translates this frame by `Trans` (so it ends at
its own centroid); and (e) changes no other field — atom count,
coordinate count, capacity, masses, velocities, box, temperature — of
either frame. -/
theorem C2_rmsd_side_effects (sq : ℚ → ℚ) (diag : M3 → Option (V3 × M3))
    (f Ref : Frame) (useMass : Bool) (U0 : M3)
    (hn : f.natom = Ref.natom)
    (hw : ¬ f.totalWeight useMass < SMALL) :
    (Frame.RMSD sq diag f Ref useMass U0).refTrans =
      (if useMass then Ref.VCenterOfMass 0 Ref.natom
       else Ref.VGeometricCenter 0 Ref.natom) ∧
    (∀ a, a < Ref.natom →
      (Frame.RMSD sq diag f Ref useMass U0).Ref.coord (3*a) =
        Ref.coord (3*a) - (Frame.RMSD sq diag f Ref useMass U0).refTrans.x ∧
      (Frame.RMSD sq diag f Ref useMass U0).Ref.coord (3*a + 1) =
        Ref.coord (3*a + 1) - (Frame.RMSD sq diag f Ref useMass U0).refTrans.y ∧
      (Frame.RMSD sq diag f Ref useMass U0).Ref.coord (3*a + 2) =
        Ref.coord (3*a + 2) - (Frame.RMSD sq diag f Ref useMass U0).refTrans.z) ∧
    (Frame.RMSD sq diag f Ref useMass U0).Trans =
      V3.neg (if useMass then f.VCenterOfMass 0 f.natom
              else f.VGeometricCenter 0 f.natom) ∧
    (∀ a, a < f.natom →
      (Frame.RMSD sq diag f Ref useMass U0).frame.coord (3*a) =
        f.coord (3*a) + (Frame.RMSD sq diag f Ref useMass U0).Trans.x ∧
      (Frame.RMSD sq diag f Ref useMass U0).frame.coord (3*a + 1) =
        f.coord (3*a + 1) + (Frame.RMSD sq diag f Ref useMass U0).Trans.y ∧
      (Frame.RMSD sq diag f Ref useMass U0).frame.coord (3*a + 2) =
        f.coord (3*a + 2) + (Frame.RMSD sq diag f Ref useMass U0).Trans.z) ∧
    (Frame.RMSD sq diag f Ref useMass U0).frame.natom = f.natom ∧
    (Frame.RMSD sq diag f Ref useMass U0).frame.ncoord = f.ncoord ∧
    (Frame.RMSD sq diag f Ref useMass U0).frame.maxnatom = f.maxnatom ∧
    (Frame.RMSD sq diag f Ref useMass U0).frame.Mass = f.Mass ∧
    (Frame.RMSD sq diag f Ref useMass U0).frame.V = f.V ∧
    (Frame.RMSD sq diag f Ref useMass U0).frame.box = f.box ∧
    (Frame.RMSD sq diag f Ref useMass U0).frame.T = f.T ∧
    (Frame.RMSD sq diag f Ref useMass U0).Ref.natom = Ref.natom ∧
    (Frame.RMSD sq diag f Ref useMass U0).Ref.ncoord = Ref.ncoord ∧
    (Frame.RMSD sq diag f Ref useMass U0).Ref.maxnatom = Ref.maxnatom ∧
    (Frame.RMSD sq diag f Ref useMass U0).Ref.Mass = Ref.Mass ∧
    (Frame.RMSD sq diag f Ref useMass U0).Ref.V = Ref.V ∧
    (Frame.RMSD sq diag f Ref useMass U0).Ref.box = Ref.box ∧
    (Frame.RMSD sq diag f Ref useMass U0).Ref.T = Ref.T := by
  have hfr := rmsdCenteredRef_frame_trans sq diag f
    (Ref.NegTranslate (if useMass then Ref.VCenterOfMass 0 f.natom
      else Ref.VGeometricCenter 0 f.natom)) useMass U0 hw
  refine ⟨?_, fun a ha => ?_, ?_, fun a ha => ?_, ?_, ?_, ?_, ?_, ?_, ?_, ?_,
    ?_, ?_, ?_, ?_, ?_, ?_, ?_⟩
  · simp only [Frame.RMSD]
    rw [hn]
  · simp only [Frame.RMSD]
    exact NegTranslate_coord_xyz Ref _ a (hn ▸ ha)
  · simp only [Frame.RMSD]
    rw [hfr.2, rmsdTrans_eq_neg_center]
  · simp only [Frame.RMSD]
    rw [hfr.1, hfr.2]
    exact Translate_coord_xyz f _ a ha
  · simp only [Frame.RMSD]
    rw [hfr.1]
    rfl
  · simp only [Frame.RMSD]
    rw [hfr.1]
    rfl
  · simp only [Frame.RMSD]
    rw [hfr.1]
    rfl
  · simp only [Frame.RMSD]
    rw [hfr.1]
    rfl
  · simp only [Frame.RMSD]
    rw [hfr.1]
    rfl
  · simp only [Frame.RMSD]
    rw [hfr.1]
    rfl
  · simp only [Frame.RMSD]
    rw [hfr.1]
    rfl
  · simp only [Frame.RMSD]
    rfl
  · simp only [Frame.RMSD]
    rfl
  · simp only [Frame.RMSD]
    rfl
  · simp only [Frame.RMSD]
    rfl
  · simp only [Frame.RMSD]
    rfl
  · simp only [Frame.RMSD]
    rfl
  · simp only [Frame.RMSD]
    rfl

/-- C2 witness: the spec's concrete scenario — a 2-atom frame at
`(0,0,0),(1,0,0)` fit against a copy translated by `(5,5,5)`,
unweighted: `Trans` is the negated centroid `(-1/2, 0, 0)`, `refTrans`
the reference centroid `(11/2, 5, 5)`, and atom 0 of this frame ends at
`(-1/2, 0, 0)` relative to the origin on the x axis. -/
theorem C2_rmsd_side_effects_witness :
    ((⟨2, 2, 6, 0, [0,0,0,1,0,0], none, [], [0,0,0,0,0,0]⟩ : Frame).natom =
      (⟨2, 2, 6, 0, [5,5,5,6,5,5], none, [], [0,0,0,0,0,0]⟩ : Frame).natom) ∧
    (¬ (⟨2, 2, 6, 0, [0,0,0,1,0,0], none, [], [0,0,0,0,0,0]⟩ : Frame).totalWeight
        false < SMALL) ∧
    (Frame.RMSD (fun x => x) (fun _ => none)
      ⟨2, 2, 6, 0, [0,0,0,1,0,0], none, [], [0,0,0,0,0,0]⟩
      ⟨2, 2, 6, 0, [5,5,5,6,5,5], none, [], [0,0,0,0,0,0]⟩ false M3.zero).Trans =
      ⟨-(1/2), 0, 0⟩ ∧
    (Frame.RMSD (fun x => x) (fun _ => none)
      ⟨2, 2, 6, 0, [0,0,0,1,0,0], none, [], [0,0,0,0,0,0]⟩
      ⟨2, 2, 6, 0, [5,5,5,6,5,5], none, [], [0,0,0,0,0,0]⟩ false M3.zero).refTrans =
      ⟨11/2, 5, 5⟩ ∧
    (Frame.RMSD (fun x => x) (fun _ => none)
      ⟨2, 2, 6, 0, [0,0,0,1,0,0], none, [], [0,0,0,0,0,0]⟩
      ⟨2, 2, 6, 0, [5,5,5,6,5,5], none, [], [0,0,0,0,0,0]⟩ false M3.zero).frame.coord 0
      = -(1/2) := by
  have hw : ¬ (⟨2, 2, 6, 0, [0,0,0,1,0,0], none, [], [0,0,0,0,0,0]⟩ : Frame).totalWeight
      false < SMALL := by
    norm_num [Frame.totalWeight, SMALL]
  have h := C2_rmsd_side_effects (fun x => x) (fun _ => none)
    ⟨2, 2, 6, 0, [0,0,0,1,0,0], none, [], [0,0,0,0,0,0]⟩
    ⟨2, 2, 6, 0, [5,5,5,6,5,5], none, [], [0,0,0,0,0,0]⟩ false M3.zero rfl hw
  refine ⟨rfl, hw, ?_, ?_, ?_⟩
  · rw [h.2.2.1]
    norm_num [Frame.VGeometricCenter, V3.neg, Frame.coord,
      Finset.sum_Ico_eq_sum_range, Finset.sum_range_succ, List.getD]
  · rw [h.1]
    norm_num [Frame.VGeometricCenter, V3.neg, Frame.coord,
      Finset.sum_Ico_eq_sum_range, Finset.sum_range_succ, List.getD]
  · have hc := (h.2.2.2.1 0 (by norm_num)).1
    norm_num at hc
    rw [hc, h.2.2.1]
    norm_num [Frame.VGeometricCenter, V3.neg, Frame.coord,
      Finset.sum_Ico_eq_sum_range, Finset.sum_range_succ, List.getD]

-- ---------- C1: the RMSD value formula ----------------------------------------

/-- C1: for equal atom counts, total weight at or above the threshold and a
successful diagonalization of `R^T R` returning eigenvalues
`(eig.x, eig.y, eig.z)` (sorted descending by contract), the value
returned by `RMSD_CenteredRef` is
`sqrt(2*E/totalWeight)` for
`E = E0 - sqrt|eig0| - sqrt|eig1| - sig3*sqrt|eig2|` —
`E0` the half weighted sum of squared coordinate norms of both frames
after centering, `sig3` the chirality sign — except that when `E < 0`
the returned RMSD is exactly 0. -/
theorem C1_rmsd_formula (sq : ℚ → ℚ) (diag : M3 → Option (V3 × M3))
    (f Ref : Frame) (useMass : Bool) (U0 : M3)
    (hn : f.natom = Ref.natom)
    (hw : ¬ f.totalWeight useMass < SMALL) (eig : V3) (ev0 : M3)
    (hd : diag ((Frame.kabschR (f.Translate (f.rmsdTrans useMass)) Ref
        useMass).transposeMult
        (Frame.kabschR (f.Translate (f.rmsdTrans useMass)) Ref useMass)) =
      some (eig, ev0)) :
    (Frame.RMSD_CenteredRef sq diag f Ref useMass U0).val =
      (if (Frame.kabschE0 (f.Translate (f.rmsdTrans useMass)) Ref useMass
            - sq |eig.x| - sq |eig.y|
            - kabschSig3 sq (Frame.kabschR (f.Translate (f.rmsdTrans useMass))
                Ref useMass) (kabschEvec ev0) * sq |eig.z|) < 0
       then 0
       else sq (2 * (Frame.kabschE0 (f.Translate (f.rmsdTrans useMass)) Ref useMass
            - sq |eig.x| - sq |eig.y|
            - kabschSig3 sq (Frame.kabschR (f.Translate (f.rmsdTrans useMass))
                Ref useMass) (kabschEvec ev0) * sq |eig.z|)
          / f.totalWeight useMass)) := by
  simp only [Frame.RMSD_CenteredRef]
  rw [if_neg hw, hd]

/-- C1 witness: a single atom at the origin fit to itself with the identity
sqrt oracle and an eigensolver reporting all-zero eigenvalues: the weight
is 1, `E = 0`, and the returned RMSD is 0. -/
theorem C1_rmsd_formula_witness :
    ((⟨1, 1, 3, 0, [0, 0, 0], none, [], [0,0,0,0,0,0]⟩ : Frame).natom =
      (⟨1, 1, 3, 0, [0, 0, 0], none, [], [0,0,0,0,0,0]⟩ : Frame).natom) ∧
    (¬ (⟨1, 1, 3, 0, [0, 0, 0], none, [], [0,0,0,0,0,0]⟩ : Frame).totalWeight false
        < SMALL) ∧
    (Frame.RMSD_CenteredRef (fun x => x)
      (fun _ => some (⟨0, 0, 0⟩, ⟨1,0,0,0,1,0,0,0,1⟩))
      ⟨1, 1, 3, 0, [0, 0, 0], none, [], [0,0,0,0,0,0]⟩
      ⟨1, 1, 3, 0, [0, 0, 0], none, [], [0,0,0,0,0,0]⟩ false M3.zero).val = 0 := by
  have hw : ¬ (⟨1, 1, 3, 0, [0, 0, 0], none, [], [0,0,0,0,0,0]⟩ : Frame).totalWeight
      false < SMALL := by
    norm_num [Frame.totalWeight, SMALL]
  have h := C1_rmsd_formula (fun x => x)
    (fun _ => some (⟨0, 0, 0⟩, ⟨1,0,0,0,1,0,0,0,1⟩))
    ⟨1, 1, 3, 0, [0, 0, 0], none, [], [0,0,0,0,0,0]⟩
    ⟨1, 1, 3, 0, [0, 0, 0], none, [], [0,0,0,0,0,0]⟩ false M3.zero rfl hw
    ⟨0, 0, 0⟩ ⟨1,0,0,0,1,0,0,0,1⟩ rfl
  refine ⟨rfl, hw, ?_⟩
  rw [h]
  have hE : Frame.kabschE0
      ((⟨1, 1, 3, 0, [0, 0, 0], none, [], [0,0,0,0,0,0]⟩ : Frame).Translate
        ((⟨1, 1, 3, 0, [0, 0, 0], none, [], [0,0,0,0,0,0]⟩ : Frame).rmsdTrans false))
      ⟨1, 1, 3, 0, [0, 0, 0], none, [], [0,0,0,0,0,0]⟩ false = 0 := by
    norm_num [Frame.kabschE0, Frame.Translate, Frame.rmsdTrans, Frame.transSum,
      Frame.totalWeight, V3.neg, Frame.coord, writeAt, Finset.sum_range_succ,
      List.getD, List.range_succ, List.range_zero, List.flatten]
  rw [hE]
  norm_num [Frame.totalWeight]

end Cpptraj
